import Mathlib

/-!
Verification of the grit-engine object core (`src/engine/grit_object.cpp`).

Shallow embedding conventions:
* C++ `float` values are embedded as `ℚ` (exact arithmetic; the fade claims are
  about the exact algebra of the formulas in `GritObject::calcFade`).
* `GritObject::calcFade` first computes `range = sqrtf(range2)` (line 236) and
  every subsequent computation only uses `range`; the embedding therefore takes
  `range` itself as the argument, and the claims' precondition
  "`sqrt(range2) ∈ [0,1]`" becomes `0 ≤ range ∧ range ≤ 1`.
* Registry state (the file-static `objs`, `objs_needing_frame_callbacks`,
  `objs_needing_step_callbacks`, `name_generation_counter`) is an explicit
  `EngState` record threaded through each operation.  `GritObjectPtr` handles
  are natural-number indices into a store that never drops entries (shared
  ownership keeps records alive for as long as any handle exists).
* Calls into external collaborators (streamer, class registry reference
  counting) are recorded as trace events.
* Scripted (Lua) hook bodies are external code; they are modelled as a
  `HookSpec`: present or not, raising an error or not, and performing a finite
  list of re-entrant engine commands (deleting an object, unsubscribing an
  object from frame callbacks) — the reentrancy that the spec identifies as
  the dominant hazard.  `GRIT_EXCEPT` is modelled as `Except.error`.
* Re-entrant recursion (a hook deleting further objects) is bounded by an
  explicit fuel argument; running out of fuel leaves the state unchanged.
-/

/-! ## Fade calculator -/

/-- Inputs of `GritObject::calcFade` that come from the record's neighbour
links (lines 228-229, 240): whether a near/far neighbour exists, whether the
near neighbour is activated, and the near neighbour's `imposedFarFade`. -/
structure FadeEnv where
  nearPresent : Bool
  nearActivated : Bool
  nearImposedFarFade : ℚ
  farPresent : Bool
  deriving DecidableEq

/-- `GritObject::calcFade` (lines 225-265).  `out`/`over` are the streamer
constants `streamer_fade_out_factor` / `streamer_fade_overlap_factor`;
`range` is `sqrtf(range2)` (line 236); `overlap` is the by-reference boolean.
Returns `(fade, imposedFarFade, overlap)`: the returned own fade, the value
written to the record's `imposedFarFade` field, and the final overlap flag. -/
def calcFade (out over : ℚ) (env : FadeEnv) (range : ℚ) (overlap : Bool) :
    ℚ × ℚ × Bool :=
  let fade0 : ℚ := 1
  let fade1 := if env.nearPresent && env.nearActivated then env.nearImposedFarFade else fade0
  let overlap1 :=
    if env.nearPresent && env.nearActivated && decide (env.nearImposedFarFade < 1) then true
    else overlap
  let res :=
    if !env.farPresent then
      (if out < range then (1 - range) / (1 - out) else fade1, (1 : ℚ))
    else
      let overmid := (over + 1) / 2
      if overmid < range then ((1 - range) / (1 - overmid), (1 : ℚ))
      else if over < range then (fade1, 1 - (overmid - range) / (overmid - over))
      else (fade1, (0 : ℚ))
  let fade2 := if res.1 < 0 then 0 else res.1
  let iff2 := if res.2 < 0 then 0 else res.2
  (fade2, iff2, overlap1)

/-! ## Decimal name generation -/

/-- The modulus of the source's `name_generation_counter`: the counter is a
`static unsigned long long` (line 36), a 64-bit unsigned integer that wraps
around modulo `2 ^ 64 = 18446744073709551616`. -/
def W64 : Nat := 18446744073709551616

/-- Little-endian decimal digits of `n`, with explicit fuel so the definition
is structurally recursive (the callers provide enough fuel for every digit:
`n < 10 ^ fuel`). -/
def natDigitsF : Nat → Nat → List Nat
  | 0, _ => []
  | fuel + 1, n => if n = 0 then [] else n % 10 :: natDigitsF fuel (n / 10)

/-- Value of a little-endian decimal digit list (used to invert `natDigitsF`). -/
def undigits : List Nat → Nat
  | [] => 0
  | d :: ds => d + 10 * undigits ds

/-- Decimal rendering of a counter value, as `operator<<` on an unsigned
64-bit integer produces it (most significant digit first, `0 ↦ "0"`).  A
64-bit value has at most 20 decimal digits, so 20 digits of fuel cover the
counter's whole range (and any `n < 10 ^ 20`). -/
def natRepr (n : Nat) : String :=
  if n = 0 then "0"
  else ⟨((natDigitsF 20 n).map (fun d => Char.ofNat (48 + d))).reverse⟩

/-- The anonymous name synthesised by `object_add` (lines 539-542):
`"Unnamed:" << grit_class->name << ":" << name_generation_counter`. -/
def genName (cname : String) (k : Nat) : String :=
  "Unnamed:" ++ cname ++ ":" ++ natRepr k

/-! ## Engine state -/

/-- A re-entrant engine call that a scripted hook body can make while it runs
(the reentrancy scenarios the spec calls out): deleting an object via
`object_del`, or unsubscribing an object from frame callbacks via
`setNeedsFrameCallbacks(false)`. -/
inductive Cmd where
  | cdel (oid : Nat)
  | cunsubFrame (oid : Nat)
  deriving DecidableEq

/-- Model of one scripted hook of a class: whether the class table has the
field at all (`lua_isnil` test), the re-entrant engine calls its body makes,
whether the `lua_pcall` of the body raises, and the boolean it returns (only
read by `deactivate`). -/
structure HookSpec where
  present : Bool
  cmds : List Cmd
  errors : Bool
  killme : Bool
  deriving DecidableEq

/-- A `GritClass` as seen by this file: its name and its scripted hooks.
Per-instance hook overrides through `userValues` are not modelled; hooks are
resolved on the class. -/
structure GritClass where
  cname : String
  activateHook : HookSpec
  deactivateHook : HookSpec
  initHook : HookSpec
  setFadeHook : HookSpec
  frameHook : HookSpec
  stepHook : HookSpec
  deriving DecidableEq

/-- One `GritObject` record (constructor at lines 38-51 plus the fields used
by the member functions).  `gritClass = none` is the destroyed state;
`lua = true` models `lua != LUA_NOREF`, i.e. `isActivated()` (the activation
flag is derived from the scripted-instance handle, per the header/spec).
`index = -1` is the unindexed sentinel of the spatial sphere. -/
structure ObjRec where
  name : String
  anonymous : Bool
  gritClass : Option String
  lua : Bool
  needsFrameCallbacks : Bool
  needsStepCallbacks : Bool
  imposedFarFade : ℚ
  lastFade : ℚ
  pos : ℚ × ℚ × ℚ
  r : ℚ
  index : Int
  nearObj : Option Nat
  farObj : Option Nat
  userValues : List String
  demandLoaded : Bool
  demandLoadFails : Bool
  deriving DecidableEq

/-- Trace of calls into external collaborators (class registry reference
counting and the streamer), used to state ordering and "unchanged" claims. -/
inductive Event where
  | classAcquired (c : String)
  | classReleased (c : String)
  | streamerList (oid : Nat)
  | streamerUnlist (oid : Nat)
  | streamerListActivated (oid : Nat)
  | streamerUnlistActivated (oid : Nat)
  | streamerUpdateSphere (index : Int) (pos : ℚ × ℚ × ℚ) (r : ℚ)
  | frameCbInvoked (oid : Nat)
  deriving DecidableEq

/-- The file-static state of `grit_object.cpp` (lines 32-36): the registry
map `objs`, both hot-sets, and `name_generation_counter` — an
`unsigned long long`, so every read and post-increment of `nameCounter`
(all inside `genNameLoop`) is taken modulo `W64 = 2 ^ 64`; plus the store of
records reachable through handles, the class registry (read-only here), a
fresh-handle counter, and the collaborator-call trace. -/
structure EngState where
  classes : List (String × GritClass)
  store : List (Nat × ObjRec)
  objs : List (String × Nat)
  frameHot : List Nat
  stepHot : List Nat
  nameCounter : Nat
  nextId : Nat
  events : List Event
  deriving DecidableEq

/-! ### Association-list and set primitives (std::map / std::set) -/

/-- `std::map::find` on an association list. -/
def alookup {α β : Type} [DecidableEq α] : List (α × β) → α → Option β
  | [], _ => none
  | p :: ps, k => if p.1 = k then some p.2 else alookup ps k

/-- `std::map::erase` by key. -/
def aerase {α β : Type} [DecidableEq α] (l : List (α × β)) (k : α) : List (α × β) :=
  l.filter fun p => decide (p.1 ≠ k)

/-- Replace the value stored under a key that is present in the list. -/
def aupdate {α β : Type} [DecidableEq α] : List (α × β) → α → (β → β) → List (α × β)
  | [], _, _ => []
  | p :: ps, k, f => (if p.1 = k then (p.1, f p.2) else p) :: aupdate ps k f

/-- `std::map::operator[]` followed by assignment: replace if present,
append otherwise. -/
def aupsert {α β : Type} [DecidableEq α] (l : List (α × β)) (k : α) (v : β) :
    List (α × β) :=
  if (alookup l k).isSome then aupdate l k (fun _ => v) else l ++ [(k, v)]

/-- `std::set::erase`. -/
def serase (l : List Nat) (x : Nat) : List Nat :=
  l.filter fun y => decide (y ≠ x)

/-- `std::set::insert`. -/
def sinsert (l : List Nat) (x : Nat) : List Nat :=
  if x ∈ l then l else l ++ [x]

/-! ### State helpers -/

/-- Dereference a handle. -/
def getObj (st : EngState) (oid : Nat) : Option ObjRec :=
  alookup st.store oid

/-- Update the record a handle points to. -/
def updObj (st : EngState) (oid : Nat) (f : ObjRec → ObjRec) : EngState :=
  { st with store := aupdate st.store oid f }

/-- Record a collaborator call. -/
def emit (st : EngState) (e : Event) : EngState :=
  { st with events := st.events ++ [e] }

/-- The registry's key set. -/
def objsKeys (st : EngState) : List String :=
  st.objs.map Prod.fst

/-- `luaL_unref; lua = LUA_NOREF` (clears the activation handle). -/
def clearLua (st : EngState) (oid : Nat) : EngState :=
  updObj st oid fun o => { o with lua := false }

/-- Number of `gritClass->release` calls recorded for class `c`. -/
def releasesOf (st : EngState) (c : String) : Nat :=
  (st.events.filter fun e => decide (e = Event.classReleased c)).length

/-- Number of `gritClass->acquire` calls recorded for class `c`. -/
def acquiresOf (st : EngState) (c : String) : Nat :=
  (st.events.filter fun e => decide (e = Event.classAcquired c)).length

/-- Number of times the scripted `frameCallback` hook of handle `oid` was
invoked, per the trace. -/
def frameInvokes (st : EngState) (oid : Nat) : Nat :=
  (st.events.filter fun e => decide (e = Event.frameCbInvoked oid)).length

/-- The hook field names a class's table provides (for `getField` fall-through
resolution, lines 517-527). -/
def classFields (cl : GritClass) : List String :=
  (if cl.activateHook.present then ["activate"] else []) ++
  (if cl.deactivateHook.present then ["deactivate"] else []) ++
  (if cl.initHook.present then ["init"] else []) ++
  (if cl.setFadeHook.present then ["setFade"] else []) ++
  (if cl.frameHook.present then ["frameCallback"] else []) ++
  (if cl.stepHook.present then ["stepCallback"] else [])

/-! ### Lifecycle operations (straight-line ones first) -/

/-- `GritObject::getField` (lines 517-527): fatal "Object destroyed" on a
destroyed record, otherwise the instance `userValues` table is consulted and
the class definition is the fall-back.  The result is whether the field
resolved to a non-nil value. -/
def getFieldE (st : EngState) (oid : Nat) (f : String) : Except String Bool :=
  match getObj st oid with
  | none => .ok false
  | some o =>
    match o.gritClass with
    | none => .error "Object destroyed"
    | some cn =>
      .ok (decide (f ∈ o.userValues) ||
        match alookup st.classes cn with
        | some cl => decide (f ∈ classFields cl)
        | none => false)

/-- `GritObject::setNeedsFrameCallbacks` (lines 491-502). -/
def setNeedsFrameCallbacksE (st : EngState) (oid : Nat) (v : Bool) :
    Except String EngState :=
  match getObj st oid with
  | none => .ok st
  | some o =>
    match o.gritClass with
    | none => .error "Object destroyed"
    | some _ =>
      if v = o.needsFrameCallbacks then .ok st
      else
        let st := updObj st oid fun q => { q with needsFrameCallbacks := v }
        if v then .ok { st with frameHot := sinsert st.frameHot oid }
        else .ok { st with frameHot := serase st.frameHot oid }

/-- `GritObject::setNeedsStepCallbacks` (lines 504-515). -/
def setNeedsStepCallbacksE (st : EngState) (oid : Nat) (v : Bool) :
    Except String EngState :=
  match getObj st oid with
  | none => .ok st
  | some o =>
    match o.gritClass with
    | none => .error "Object destroyed"
    | some _ =>
      if v = o.needsStepCallbacks then .ok st
      else
        let st := updObj st oid fun q => { q with needsStepCallbacks := v }
        if v then .ok { st with stepHot := sinsert st.stepHot oid }
        else .ok { st with stepHot := serase st.stepHot oid }

/-- `GritObject::updateSphere(pos, r)` (lines 473-479): return immediately on
the unindexed sentinel, otherwise store the new sphere and notify the
streamer.  Note there is no destroyed-state check. -/
def updateSphereE (st : EngState) (oid : Nat) (p : ℚ × ℚ × ℚ) (rad : ℚ) :
    Except String EngState :=
  match getObj st oid with
  | none => .ok st
  | some o =>
    if o.index = -1 then .ok st
    else
      let st := updObj st oid fun q => { q with pos := p, r := rad }
      .ok (emit st (.streamerUpdateSphere o.index p rad))

/-- `GritObject::updateSphere(pos)` (lines 481-484): delegates with the stored
radius. -/
def updateSpherePosE (st : EngState) (oid : Nat) (p : ℚ × ℚ × ℚ) :
    Except String EngState :=
  match getObj st oid with
  | none => .ok st
  | some o => updateSphereE st oid p o.r

/-- `GritObject::updateSphere(r)` (lines 486-489): delegates with the stored
position. -/
def updateSphereRE (st : EngState) (oid : Nat) (rad : ℚ) :
    Except String EngState :=
  match getObj st oid with
  | none => .ok st
  | some o => updateSphereE st oid o.pos rad

/-! ### Re-entrant core: destroy / delete / hooks

The C++ recursion `object_del → destroy → deactivate → (Lua hook) →
object_del …` is tied with an explicit fuel in `object_del`;
`runCmdsWith` / `deactivateWith` / `destroyWith` are written against an
abstract `del` continuation so each mirrors its source function directly. -/

/-- One engine call made from inside a Lua hook body.  An error raised by the
call surfaces as a Lua error inside the hook's `lua_pcall`. -/
def cmdStep (del : EngState → Nat → Except String EngState) (st : EngState) :
    Cmd → Except String EngState
  | .cdel oid => del st oid
  | .cunsubFrame oid => setNeedsFrameCallbacksE st oid false

/-- Run a hook body's engine calls in order; the first error aborts the rest
of the body and makes the surrounding `lua_pcall` report failure (the `Bool`
is the "hook raised" flag from the calls alone). -/
def runCmdsWith (del : EngState → Nat → Except String EngState)
    (st : EngState) (cmds : List Cmd) : EngState × Bool :=
  cmds.foldl
    (fun acc c =>
      if acc.2 then acc
      else
        match cmdStep del acc.1 c with
        | .ok s => (s, false)
        | .error _ => (acc.1, true))
    (st, false)

/-- `GritObject::deactivate` (lines 267-332): fatal on destroyed; no-op
returning `false` when not activated; otherwise unlist from the streamer's
activated set, resolve the class's "deactivate" hook (absence logs, clears
the instance ref and returns `true`), run it (an error forces
`killme = true`), and always clear the scripted-instance ref. -/
def deactivateWith (del : EngState → Nat → Except String EngState)
    (st : EngState) (oid : Nat) : Except String (EngState × Bool) :=
  match getObj st oid with
  | none => .ok (st, false)
  | some o =>
    match o.gritClass with
    | none => .error "Object destroyed"
    | some cn =>
      if !o.lua then .ok (st, false)
      else
        let st := emit st (.streamerUnlistActivated oid)
        match (alookup st.classes cn).map (fun cl => cl.deactivateHook) with
        | none => .ok (clearLua st oid, true)
        | some hk =>
          if !hk.present then .ok (clearLua st oid, true)
          else
            let pr := runCmdsWith del st hk.cmds
            let killme := if pr.2 || hk.errors then true else hk.killme
            .ok (clearLua pr.1 oid, killme)

/-- `GritObject::destroy` (lines 53-69): no-op if already destroyed; erase
from the hot-sets the record is flagged into; clear the near/far neighbour
links (`setNearObj`/`setFarObj` with a null pointer — modelled from the spec:
they are declared in `grit_object.h`, which is not part of the observed
source; per the spec they unlink the record's neighbour references);
deactivate; release the class reference and null it; drop demand resources
and per-instance values. -/
def destroyWith (del : EngState → Nat → Except String EngState)
    (st : EngState) (oid : Nat) : Except String EngState :=
  match getObj st oid with
  | none => .ok st
  | some o =>
    match o.gritClass with
    | none => .ok st
    | some cn =>
      let st := if o.needsFrameCallbacks then { st with frameHot := serase st.frameHot oid } else st
      let st := if o.needsStepCallbacks then { st with stepHot := serase st.stepHot oid } else st
      let st := updObj st oid fun q => { q with nearObj := none }
      let st := updObj st oid fun q => { q with farObj := none }
      match deactivateWith del st oid with
      | .error e => .error e
      | .ok (st, _) =>
        let st := emit st (.classReleased cn)
        let st := updObj st oid fun q => { q with gritClass := none }
        .ok (updObj st oid fun q => { q with userValues := [] })

/-- `object_del` (lines 560-570): destroy the record, unlist it from the
streamer, then erase its (current) name from the registry if still present —
tolerating records already erased by re-entrant deletions.  Fuel bounds the
re-entrant recursion through hook bodies; at fuel 0 the call does nothing.
Defined by `Nat.rec` so that applications at literal fuel reduce
definitionally. -/
def object_del (fuel : Nat) : EngState → Nat → Except String EngState :=
  Nat.rec (motive := fun _ => EngState → Nat → Except String EngState)
    (fun st _ => .ok st)
    (fun _ ih st oid =>
      match destroyWith ih st oid with
      | .error e => .error e
      | .ok st =>
        let st := emit st (.streamerUnlist oid)
        match getObj st oid with
        | none => .ok st
        | some o => .ok { st with objs := aerase st.objs o.name })
    fuel

/-- The anonymous-name do-while loop of `object_add` (lines 538-543):
generate `Unnamed:<class>:<counter>`, post-increment the counter — an
`unsigned long long`, so the increment wraps around modulo `W64 = 2 ^ 64` —
and retry while the name is taken.  Fuel bounds the loop; the caller passes
the registry size, which is enough for the loop to exit whenever the
registry is smaller than the counter space (proved below). -/
def genNameLoop (cname : String) : Nat → List (String × Nat) → Nat → String × Nat
  | 0, _, k => (genName cname (k % W64), (k + 1) % W64)
  | fuel + 1, objs, k =>
    let n := genName cname (k % W64)
    if alookup objs n = none then (n, (k + 1) % W64)
    else genNameLoop cname fuel objs ((k + 1) % W64)

/-- The fresh record built by `new GritObject(name, grit_class)` (lines
38-51) with the subsequent `self->anonymous = anonymous` assignment.  The
spatial sphere fields are not initialised by the constructor; the model uses
the unindexed sentinel and a zero sphere (modelled from the spec: the spatial
index is assigned later by the streaming collaborator). -/
def mkObj (name cname : String) (anonymous : Bool) : ObjRec :=
  { name := name, anonymous := anonymous, gritClass := some cname, lua := false,
    needsFrameCallbacks := false, needsStepCallbacks := false,
    imposedFarFade := 1, lastFade := -1, pos := (0, 0, 0), r := 0, index := -1,
    nearObj := none, farObj := none, userValues := [],
    demandLoaded := false, demandLoadFails := false }

/-- `object_add` (lines 533-558): synthesise an anonymous name when `name` is
empty; delete any record already registered under the name; construct the new
record (acquiring the class), register it and list it with the streamer.
Returns the new handle. -/
def object_add (fuel : Nat) (st : EngState) (name cname : String) :
    Except String (EngState × Nat) :=
  let a :=
    if name = "" then
      let g := genNameLoop cname st.objs.length st.objs st.nameCounter
      (true, g.1, { st with nameCounter := g.2 })
    else (false, name, st)
  match a with
  | (anonymous, name2, st1) =>
    let delStep :=
      match alookup st1.objs name2 with
      | some oldId => object_del fuel st1 oldId
      | none => .ok st1
    match delStep with
    | .error e => .error e
    | .ok st2 =>
      let id := st2.nextId
      let st3 := emit st2 (.classAcquired cname)
      let st4 := { st3 with
        store := st3.store ++ [(id, mkObj name2 cname anonymous)],
        objs := aupsert st3.objs name2 id,
        nextId := id + 1 }
      .ok (emit st4 (.streamerList id), id)

/-- The loop body of `object_all_del` (lines 593-599), iterating a list that
was snapshotted before the loop started. -/
def delListF (fuel : Nat) : List (String × Nat) → EngState → Except String EngState
  | [], st => .ok st
  | p :: rest, st =>
    match object_del fuel st p.2 with
    | .error e => .error e
    | .ok st' => delListF fuel rest st'

/-- `object_all_del` (lines 593-599): copy the registry map, then delete every
entry of the copy. -/
def object_all_del (fuel : Nat) (st : EngState) : Except String EngState :=
  delListF fuel st.objs st

/-- `GritObject::frameCallback` (lines 386-427): fatal on destroyed; `false`
when the class has no "frameCallback" hook; otherwise invoke the hook and
report whether it completed without raising (a raised error is swallowed
after the error handler reports it). -/
def frameCallbackF (fuel : Nat) (st : EngState) (oid : Nat) :
    Except String (EngState × Bool) :=
  match getObj st oid with
  | none => .ok (st, false)
  | some o =>
    match o.gritClass with
    | none => .error "Object destroyed"
    | some cn =>
      match (alookup st.classes cn).map (fun cl => cl.frameHook) with
      | none => .ok (st, false)
      | some hk =>
        if !hk.present then .ok (st, false)
        else
          let st := emit st (.frameCbInvoked oid)
          let pr := runCmdsWith (object_del fuel) st hk.cmds
          .ok (pr.1, !(pr.2 || hk.errors))

/-- The loop body of `object_do_frame_callbacks` (lines 605-614) over the
snapshotted hot-set: call each subscriber's hook and unsubscribe it when the
hook is absent or raised. -/
def frameCbListF (fuel : Nat) : List Nat → EngState → Except String EngState
  | [], st => .ok st
  | oid :: rest, st =>
    match frameCallbackF fuel st oid with
    | .error e => .error e
    | .ok (st, ok) =>
      if ok then frameCbListF fuel rest st
      else
        match setNeedsFrameCallbacksE st oid false with
        | .error e => .error e
        | .ok st => frameCbListF fuel rest st

/-- `object_do_frame_callbacks` (lines 605-614): snapshot the frame hot-set
(`GObjSet victims = objs_needing_frame_callbacks`), then dispatch over the
snapshot. -/
def object_do_frame_callbacks (fuel : Nat) (st : EngState) : Except String EngState :=
  frameCbListF fuel st.frameHot st

/-- `GritObject::activate` (lines 128-223): no-op when already activated;
fatal on destroyed; a demand load that raises logs and self-deletes; a
missing "activate" hook logs and self-deletes; otherwise the scripted
instance ref is captured before the call, an error during the call
self-deletes, and success lists the object as activated and resets
`lastFade`. -/
def activateF (fuel : Nat) (st : EngState) (oid : Nat) : Except String EngState :=
  match getObj st oid with
  | none => .ok st
  | some o =>
    if o.lua then .ok st
    else
      match o.gritClass with
      | none => .error "Object destroyed"
      | some cn =>
        if !o.demandLoaded && o.demandLoadFails then object_del fuel st oid
        else
          let st := if o.demandLoaded then st else updObj st oid fun q => { q with demandLoaded := true }
          match (alookup st.classes cn).map (fun cl => cl.activateHook) with
          | none => object_del fuel st oid
          | some hk =>
            if !hk.present then object_del fuel st oid
            else
              let st := updObj st oid fun q => { q with lua := true }
              let pr := runCmdsWith (object_del fuel) st hk.cmds
              if pr.2 || hk.errors then object_del fuel pr.1 oid
              else
                let st := emit pr.1 (.streamerListActivated oid)
                .ok (updObj st oid fun q => { q with lastFade := -1 })

/-- `GritObject::init` (lines 335-384): fatal on destroyed; a missing "init"
hook logs and self-deletes; an error during the call logs and self-deletes. -/
def initF (fuel : Nat) (st : EngState) (oid : Nat) : Except String EngState :=
  match getObj st oid with
  | none => .ok st
  | some o =>
    match o.gritClass with
    | none => .error "Object destroyed"
    | some cn =>
      match (alookup st.classes cn).map (fun cl => cl.initHook) with
      | none => object_del fuel st oid
      | some hk =>
        if !hk.present then object_del fuel st oid
        else
          let pr := runCmdsWith (object_del fuel) st hk.cmds
          if pr.2 || hk.errors then object_del fuel pr.1 oid else .ok pr.1

/-- `GritObject::notifyFade` (lines 74-126): fatal on destroyed; no-op when
not activated; a missing "setFade" hook is silently accepted; an error during
the call deletes the object. -/
def notifyFadeF (fuel : Nat) (st : EngState) (oid : Nat) (fade : ℚ) :
    Except String EngState :=
  match getObj st oid with
  | none => .ok st
  | some o =>
    match o.gritClass with
    | none => .error "Object destroyed"
    | some cn =>
      if !o.lua then .ok st
      else
        match (alookup st.classes cn).map (fun cl => cl.setFadeHook) with
        | none => .ok st
        | some hk =>
          if !hk.present then .ok st
          else
            let pr := runCmdsWith (object_del fuel) st hk.cmds
            if pr.2 || hk.errors then object_del fuel pr.1 oid else .ok pr.1

/-- Registry well-formedness: every registry entry points at a stored record
whose `name` field is the registry key (maintained by construction in the
C++ core, where records are only registered by `object_add`). -/
def WfB (st : EngState) : Bool :=
  st.objs.all fun p =>
    match alookup st.store p.2 with
    | some o => decide (o.name = p.1)
    | none => false

/-! ### Concrete states for witnesses and counterexamples -/

/-- A record in the destroyed state: class reference null, not activated,
unindexed sphere. -/
def exDestroyedObj : ObjRec :=
  { mkObj "x" "C" false with gritClass := none }

/-- A state whose registry still maps `"x"` to the destroyed record. -/
def exDestroyedSt : EngState :=
  { classes := [], store := [(0, exDestroyedObj)], objs := [("x", 0)],
    frameHot := [], stepHot := [], nameCounter := 0, nextId := 1, events := [] }

/-- Like `exDestroyedSt` but with the destroyed record's name no longer
bound in the registry (the state left behind by a completed `object_del`). -/
def exAbsentSt : EngState :=
  { exDestroyedSt with objs := [] }

/-- Relation between a state and any state produced from it by teardown-only
operations (`object_del` and everything it re-enters): every stored record
survives with its name intact, and the registry's key set only shrinks. -/
def Shrinks (st st2 : EngState) : Prop :=
  (∀ i o, getObj st i = some o → ∃ o2, getObj st2 i = some o2 ∧ o2.name = o.name) ∧
  (∀ n, n ∈ objsKeys st2 → n ∈ objsKeys st)

/-- A hook a class does not provide. -/
def exHookAbsent : HookSpec :=
  { present := false, cmds := [], errors := false, killme := false }

/-- A class whose deactivate hook re-entrantly deletes the object with
handle 1 (the claim C4 scenario: deactivating A deletes B mid-sweep). -/
def exClassA : GritClass :=
  { cname := "A", activateHook := exHookAbsent,
    deactivateHook := { present := true, cmds := [Cmd.cdel 1], errors := false, killme := false },
    initHook := exHookAbsent, setFadeHook := exHookAbsent,
    frameHook := exHookAbsent, stepHook := exHookAbsent }

/-- An activated record of class A. -/
def exRecA : ObjRec :=
  { mkObj "a" "A" false with lua := true }

/-- An inactive record of class A. -/
def exRecB : ObjRec :=
  mkObj "b" "A" false

/-- Two-object registry where deleting "a" re-entrantly deletes "b". -/
def exDelSt : EngState :=
  { classes := [("A", exClassA)], store := [(0, exRecA), (1, exRecB)],
    objs := [("a", 0), ("b", 1)], frameHot := [], stepHot := [],
    nameCounter := 0, nextId := 2, events := [] }

/-- A class whose deactivate hook exists, makes no re-entrant engine calls
and succeeds. -/
def exClassB : GritClass :=
  { cname := "B", activateHook := exHookAbsent,
    deactivateHook := { present := true, cmds := [], errors := false, killme := false },
    initHook := exHookAbsent, setFadeHook := exHookAbsent,
    frameHook := exHookAbsent, stepHook := exHookAbsent }

/-- An activated record of class B subscribed to both callback hot-sets. -/
def exRecC : ObjRec :=
  { mkObj "c" "B" false with
      lua := true,
      needsFrameCallbacks := true,
      needsStepCallbacks := true }

/-- A registry with one live, activated, hot-set-subscribed record "c". -/
def exAddSt : EngState :=
  { classes := [("B", exClassB)], store := [(0, exRecC)], objs := [("c", 0)],
    frameHot := [0], stepHot := [0], nameCounter := 0, nextId := 1, events := [] }

/-- Whether a hook command is a pure frame-callback unsubscription (the
mid-pass mutation the dispatch claims are about). -/
def isUnsub : Cmd → Bool
  | .cdel _ => false
  | .cunsubFrame _ => true

/-- The "frameCallback" hook the dispatcher would resolve for a handle. -/
def frameHookOf (st : EngState) (oid : Nat) : Option HookSpec :=
  match getObj st oid with
  | none => none
  | some o =>
    match o.gritClass with
    | none => none
    | some cn => (alookup st.classes cn).map fun cl => cl.frameHook

/-- A hot-set member the dispatch pass can process: a live record whose class
resolves and whose frame hook makes only unsubscription calls. -/
def MemberOkF (s : EngState) (oid : Nat) : Prop :=
  ∃ o cn cl, getObj s oid = some o ∧ o.gritClass = some cn ∧
    alookup s.classes cn = some cl ∧ ∀ c ∈ cl.frameHook.cmds, isUnsub c = true

/-- The hot-set ↔ flag mirror invariant for the frame hot-set. -/
def MirrorF (s : EngState) : Prop :=
  ∀ i ∈ s.frameHot, ∃ o, getObj s i = some o ∧ o.needsFrameCallbacks = true

/-- Relation between a state and a later state produced by unsubscription-only
dispatch steps: records survive with their class reference intact, the class
registry is untouched, the frame hot-set only shrinks, and the collaborator
trace only grows. -/
def UPresF (s s2 : EngState) : Prop :=
  (∀ i o, getObj s i = some o → ∃ o2, getObj s2 i = some o2 ∧ o2.gritClass = o.gritClass) ∧
  s2.classes = s.classes ∧
  (∀ x, x ∈ s2.frameHot → x ∈ s.frameHot)

/-- A class whose frame hook re-entrantly unsubscribes the object with
handle 11 from the frame hot-set mid-pass. -/
def exClassW : GritClass :=
  { cname := "W", activateHook := exHookAbsent, deactivateHook := exHookAbsent,
    initHook := exHookAbsent, setFadeHook := exHookAbsent,
    frameHook := { present := true, cmds := [Cmd.cunsubFrame 11], errors := false,
                   killme := false },
    stepHook := exHookAbsent }

/-- A class whose frame hook exists, makes no re-entrant calls and succeeds. -/
def exClassX : GritClass :=
  { cname := "X", activateHook := exHookAbsent, deactivateHook := exHookAbsent,
    initHook := exHookAbsent, setFadeHook := exHookAbsent,
    frameHook := { present := true, cmds := [], errors := false, killme := false },
    stepHook := exHookAbsent }

/-- A class providing no frame hook at all. -/
def exClassY : GritClass :=
  { cname := "Y", activateHook := exHookAbsent, deactivateHook := exHookAbsent,
    initHook := exHookAbsent, setFadeHook := exHookAbsent,
    frameHook := exHookAbsent, stepHook := exHookAbsent }

/-- A class whose frame hook exists but raises an error when invoked. -/
def exClassZ : GritClass :=
  { cname := "Z", activateHook := exHookAbsent, deactivateHook := exHookAbsent,
    initHook := exHookAbsent, setFadeHook := exHookAbsent,
    frameHook := { present := true, cmds := [], errors := true, killme := false },
    stepHook := exHookAbsent }

/-- Frame-subscribed activated record of class W. -/
def exRecW : ObjRec :=
  { mkObj "w" "W" false with lua := true, needsFrameCallbacks := true }

/-- Frame-subscribed activated record of class X. -/
def exRecX : ObjRec :=
  { mkObj "x1" "X" false with lua := true, needsFrameCallbacks := true }

/-- Frame-subscribed activated record of class Y. -/
def exRecY : ObjRec :=
  { mkObj "y" "Y" false with lua := true, needsFrameCallbacks := true }

/-- Frame-subscribed activated record of class Z. -/
def exRecZ : ObjRec :=
  { mkObj "z" "Z" false with lua := true, needsFrameCallbacks := true }

/-- Four frame-hot subscribers: handle 10's hook unsubscribes 11 mid-pass,
12's class has no frame hook, and 13's hook raises an error. -/
def exFrameSt : EngState :=
  { classes := [("W", exClassW), ("X", exClassX), ("Y", exClassY), ("Z", exClassZ)],
    store := [(10, exRecW), (11, exRecX), (12, exRecY), (13, exRecZ)],
    objs := [("w", 10), ("x1", 11), ("y", 12), ("z", 13)],
    frameHot := [10, 11, 12, 13], stepHot := [], nameCounter := 0, nextId := 14,
    events := [] }

/-- Empty registry whose generation counter sits at the very top of the
64-bit range, one post-increment away from wrapping to 0. -/
def exWrapSt : EngState :=
  { classes := [], store := [], objs := [], frameHot := [], stepHot := [],
    nameCounter := W64 - 1, nextId := 0, events := [] }

/-- The state after one empty-name add on `exWrapSt`: the record is named
with counter component `2 ^ 64 - 1` and the counter has wrapped to 0. -/
def exWrapSt1 : EngState :=
  { classes := [], store := [(0, mkObj (genName "A" (W64 - 1)) "A" true)],
    objs := [(genName "A" (W64 - 1), 0)], frameHot := [], stepHot := [],
    nameCounter := 0, nextId := 1,
    events := [Event.classAcquired "A", Event.streamerList 0] }

/-- The state after a second empty-name add: the new record's counter
component is 0, below its predecessor's `2 ^ 64 - 1`. -/
def exWrapSt2 : EngState :=
  { classes := [],
    store := [(0, mkObj (genName "A" (W64 - 1)) "A" true),
              (1, mkObj (genName "A" 0) "A" true)],
    objs := [(genName "A" (W64 - 1), 0), (genName "A" 0, 1)],
    frameHot := [], stepHot := [], nameCounter := 1, nextId := 2,
    events := [Event.classAcquired "A", Event.streamerList 0,
               Event.classAcquired "A", Event.streamerList 1] }

/-- Empty registry with the generation counter at zero (far from the wrap
boundary). -/
def exAnonSt : EngState :=
  { classes := [], store := [], objs := [], frameHot := [], stepHot := [],
    nameCounter := 0, nextId := 0, events := [] }

/-! ## Theorems -/

/-! ### Fade calculator (claims C2, C3, C9) -/

theorem calcFade_nofar (out over : ℚ) (env : FadeEnv) (range : ℚ) (ov : Bool)
    (hfar : env.farPresent = false)
    (hnear : (env.nearPresent && env.nearActivated) = false) :
    calcFade out over env range ov =
      (if (if out < range then (1 - range) / (1 - out) else 1) < 0 then 0
       else if out < range then (1 - range) / (1 - out) else 1, 1, ov) := by
  simp only [calcFade, hfar, hnear, Bool.not_false, Bool.false_and, if_true, if_false,
    Bool.false_eq_true]
  norm_num

theorem calcFade_far (out over : ℚ) (env : FadeEnv) (range : ℚ) (ov : Bool)
    (hfar : env.farPresent = true) :
    (calcFade out over env range ov).2.1 =
      (if (if (over + 1) / 2 < range then (1 : ℚ)
          else if over < range then 1 - ((over + 1) / 2 - range) / ((over + 1) / 2 - over)
          else 0) < 0 then 0
       else if (over + 1) / 2 < range then (1 : ℚ)
          else if over < range then 1 - ((over + 1) / 2 - range) / ((over + 1) / 2 - over)
          else 0) := by
  simp only [calcFade, hfar, Bool.not_true, if_false, Bool.false_eq_true]
  split <;> split <;> simp

/-- C2: with no far neighbour and no activated near neighbour, the fade is
exactly 1 up to the fade-out factor, follows `(1-range)/(1-out)` above it
(strictly decreasing, 0 at range 1), and `imposedFarFade` is written as 1. -/
theorem claim_C2 (out over : ℚ) (env : FadeEnv) (ov : Bool) (range : ℚ)
    (hfar : env.farPresent = false)
    (hnear : (env.nearPresent && env.nearActivated) = false)
    (h0 : 0 ≤ range) (h1 : range ≤ 1) (hout0 : 0 ≤ out) (hout1 : out < 1) :
    (calcFade out over env range ov).2.1 = 1 ∧
    (range ≤ out → (calcFade out over env range ov).1 = 1) ∧
    (out < range → (calcFade out over env range ov).1 = (1 - range) / (1 - out)) ∧
    (range = 1 → (calcFade out over env range ov).1 = 0) ∧
    (∀ r1 r2 : ℚ, out < r1 → r1 < r2 → r2 ≤ 1 →
      (calcFade out over env r2 ov).1 < (calcFade out over env r1 ov).1) := by
  have hform : ∀ r : ℚ, out < r → r ≤ 1 →
      (calcFade out over env r ov).1 = (1 - r) / (1 - out) := by
    intro r hr hr1
    rw [calcFade_nofar out over env r ov hfar hnear]
    have hpos : (0 : ℚ) < 1 - out := by linarith
    have hnn : (0 : ℚ) ≤ (1 - r) / (1 - out) :=
      div_nonneg (by linarith) (le_of_lt hpos)
    simp only [if_pos hr]
    rw [if_neg (by linarith)]
  refine ⟨?_, ?_, ?_, ?_, ?_⟩
  · rw [calcFade_nofar out over env range ov hfar hnear]
  · intro h
    rw [calcFade_nofar out over env range ov hfar hnear]
    have hno : ¬ out < range := by linarith
    simp only [if_neg hno]
    norm_num
  · intro h
    exact hform range h h1
  · intro h
    rw [hform range (by linarith) (by linarith), h]
    simp
  · intro r1 r2 hr1 hlt hr2
    rw [hform r1 hr1 (by linarith), hform r2 (by linarith) hr2]
    have hpos : (0 : ℚ) < 1 - out := by linarith
    rw [div_lt_div_iff₀ hpos hpos]
    have := mul_lt_mul_of_pos_right (show (1 : ℚ) - r2 < 1 - r1 by linarith) hpos
    linarith

theorem clamp_nonneg (v : ℚ) : 0 ≤ if v < 0 then 0 else v := by
  split
  · exact le_refl 0
  · next h => exact le_of_not_lt h

theorem calcFade_snd_nonneg (out over : ℚ) (env : FadeEnv) (range : ℚ) (ov : Bool) :
    0 ≤ (calcFade out over env range ov).2.1 := by
  simp only [calcFade]
  exact clamp_nonneg _

/-- C3: with a far neighbour, `imposedFarFade` is 0 at or below the overlap
factor, 1 at `overmid = (overlap+1)/2`, and monotone in between. -/
theorem claim_C3 (out over : ℚ) (env : FadeEnv) (ov : Bool) (range : ℚ)
    (hfar : env.farPresent = true)
    (hover0 : 0 ≤ over) (hover1 : over < 1) :
    (range ≤ over → (calcFade out over env range ov).2.1 = 0) ∧
    (calcFade out over env ((over + 1) / 2) ov).2.1 = 1 ∧
    (∀ r1 r2 : ℚ, over ≤ r1 → r1 ≤ r2 → r2 ≤ (over + 1) / 2 →
      (calcFade out over env r1 ov).2.1 ≤ (calcFade out over env r2 ov).2.1) := by
  have hom : over < (over + 1) / 2 := by linarith
  have hd : (0 : ℚ) < (over + 1) / 2 - over := by linarith
  have hzero : ∀ r : ℚ, r ≤ over → (calcFade out over env r ov).2.1 = 0 := by
    intro r hr
    rw [calcFade_far out over env r ov hfar]
    rw [if_neg (show ¬ ((over + 1) / 2 < r) by linarith),
        if_neg (show ¬ (over < r) by linarith)]
    norm_num
  have hband : ∀ r : ℚ, over < r → r ≤ (over + 1) / 2 →
      (calcFade out over env r ov).2.1 = 1 - ((over + 1) / 2 - r) / ((over + 1) / 2 - over) := by
    intro r hr hr2
    rw [calcFade_far out over env r ov hfar]
    rw [if_neg (show ¬ ((over + 1) / 2 < r) by linarith), if_pos hr]
    have hratio : ((over + 1) / 2 - r) / ((over + 1) / 2 - over) ≤ 1 := by
      rw [div_le_one hd]; linarith
    rw [if_neg (show ¬ (1 - ((over + 1) / 2 - r) / ((over + 1) / 2 - over) < 0) by linarith)]
  refine ⟨fun h => hzero range h, ?_, ?_⟩
  · rw [hband _ hom le_rfl]
    simp
  · intro r1 r2 h1 h2 h3
    rcases lt_or_eq_of_le h1 with hlt | heq
    · rw [hband r1 hlt (by linarith), hband r2 (by linarith) h3]
      have hmono : ((over + 1) / 2 - r2) / ((over + 1) / 2 - over) ≤
          ((over + 1) / 2 - r1) / ((over + 1) / 2 - over) := by
        rw [div_le_div_iff_of_pos_right hd]
        linarith
      linarith
    · rw [hzero r1 (by linarith)]
      exact calcFade_snd_nonneg out over env r2 ov

theorem clamp_le_one (v : ℚ) (h : v ≤ 1) : (if v < 0 then 0 else v) ≤ 1 := by
  split_ifs
  · norm_num
  · exact h

/-- C9: under the documented preconditions (`range ∈ [0,1]`, both streamer
factors in `[0,1)`, a near neighbour's imposed fade in `[0,1]`), both the
returned fade and the written `imposedFarFade` land in `[0,1]` even though
the code only clamps at 0. -/
theorem claim_C9 (out over : ℚ) (env : FadeEnv) (ov : Bool) (range : ℚ)
    (h0 : 0 ≤ range) (h1 : range ≤ 1)
    (hout0 : 0 ≤ out) (hout1 : out < 1)
    (hover0 : 0 ≤ over) (hover1 : over < 1)
    (hnear : (env.nearPresent && env.nearActivated) = true →
      0 ≤ env.nearImposedFarFade ∧ env.nearImposedFarFade ≤ 1) :
    (0 ≤ (calcFade out over env range ov).1 ∧ (calcFade out over env range ov).1 ≤ 1) ∧
    (0 ≤ (calcFade out over env range ov).2.1 ∧ (calcFade out over env range ov).2.1 ≤ 1) := by
  have hbase : 0 ≤ (if (env.nearPresent && env.nearActivated) = true
        then env.nearImposedFarFade else 1) ∧
      (if (env.nearPresent && env.nearActivated) = true
        then env.nearImposedFarFade else 1) ≤ 1 := by
    split_ifs with h
    · exact hnear h
    · norm_num
  have hom : over < (over + 1) / 2 := by linarith
  have hom1 : (over + 1) / 2 < 1 := by linarith
  refine ⟨⟨?_, ?_⟩, ?_, ?_⟩
  · simp only [calcFade]
    exact clamp_nonneg _
  · simp only [calcFade]
    apply clamp_le_one
    cases hfp : env.farPresent
    · rw [if_pos (show ((!false) : Bool) = true from rfl)]
      simp only [apply_ite (Prod.fst : ℚ × ℚ → ℚ)]
      split_ifs <;> first
        | (rw [div_le_one (by linarith)]; linarith)
        | (exact (hnear (by assumption)).2)
        | norm_num
    · rw [if_neg (show ¬ ((!true) : Bool) = true from by simp)]
      simp only [apply_ite (Prod.fst : ℚ × ℚ → ℚ)]
      split_ifs <;> first
        | (rw [div_le_one (by linarith)]; linarith)
        | (exact (hnear (by assumption)).2)
        | norm_num
  · simp only [calcFade]
    exact clamp_nonneg _
  · simp only [calcFade]
    apply clamp_le_one
    cases hfp : env.farPresent
    · rw [if_pos (show ((!false) : Bool) = true from rfl)]
    · rw [if_neg (show ¬ ((!true) : Bool) = true from by simp)]
      simp only [apply_ite (Prod.snd : ℚ × ℚ → ℚ)]
      split_ifs with hA hB
      · norm_num
      · have hr : 0 ≤ ((over + 1) / 2 - range) / ((over + 1) / 2 - over) :=
          div_nonneg (by linarith) (by linarith)
        linarith
      · norm_num

theorem claim_C2_witness :
    ((FadeEnv.mk false false 0 false).farPresent = false ∧
     ((FadeEnv.mk false false 0 false).nearPresent &&
       (FadeEnv.mk false false 0 false).nearActivated) = false ∧
     (0 : ℚ) ≤ 3 / 4 ∧ (3 / 4 : ℚ) ≤ 1 ∧ (0 : ℚ) ≤ 1 / 2 ∧ (1 / 2 : ℚ) < 1) ∧
    ((calcFade (1 / 2) (1 / 4) (FadeEnv.mk false false 0 false) (3 / 4) false).2.1 = 1 ∧
     ((3 : ℚ) / 4 ≤ 1 / 2 →
       (calcFade (1 / 2) (1 / 4) (FadeEnv.mk false false 0 false) (3 / 4) false).1 = 1) ∧
     ((1 : ℚ) / 2 < 3 / 4 →
       (calcFade (1 / 2) (1 / 4) (FadeEnv.mk false false 0 false) (3 / 4) false).1 =
         (1 - 3 / 4) / (1 - 1 / 2)) ∧
     ((3 : ℚ) / 4 = 1 →
       (calcFade (1 / 2) (1 / 4) (FadeEnv.mk false false 0 false) (3 / 4) false).1 = 0) ∧
     (∀ r1 r2 : ℚ, 1 / 2 < r1 → r1 < r2 → r2 ≤ 1 →
       (calcFade (1 / 2) (1 / 4) (FadeEnv.mk false false 0 false) r2 false).1 <
         (calcFade (1 / 2) (1 / 4) (FadeEnv.mk false false 0 false) r1 false).1)) :=
  ⟨⟨rfl, rfl, by norm_num, by norm_num, by norm_num, by norm_num⟩,
   claim_C2 (1 / 2) (1 / 4) (FadeEnv.mk false false 0 false) false (3 / 4) rfl rfl
     (by norm_num) (by norm_num) (by norm_num) (by norm_num)⟩

theorem claim_C3_witness :
    ((FadeEnv.mk false false 0 true).farPresent = true ∧
     (0 : ℚ) ≤ 1 / 2 ∧ (1 / 2 : ℚ) < 1) ∧
    (((3 : ℚ) / 5 ≤ 1 / 2 →
       (calcFade 0 (1 / 2) (FadeEnv.mk false false 0 true) (3 / 5) false).2.1 = 0) ∧
     (calcFade 0 (1 / 2) (FadeEnv.mk false false 0 true) ((1 / 2 + 1) / 2) false).2.1 = 1 ∧
     (∀ r1 r2 : ℚ, 1 / 2 ≤ r1 → r1 ≤ r2 → r2 ≤ (1 / 2 + 1) / 2 →
       (calcFade 0 (1 / 2) (FadeEnv.mk false false 0 true) r1 false).2.1 ≤
         (calcFade 0 (1 / 2) (FadeEnv.mk false false 0 true) r2 false).2.1)) :=
  ⟨⟨rfl, by norm_num, by norm_num⟩,
   claim_C3 0 (1 / 2) (FadeEnv.mk false false 0 true) false (3 / 5) rfl
     (by norm_num) (by norm_num)⟩

theorem claim_C9_witness :
    ((0 : ℚ) ≤ 2 / 3 ∧ (2 / 3 : ℚ) ≤ 1 ∧ (0 : ℚ) ≤ 1 / 2 ∧ (1 / 2 : ℚ) < 1 ∧
     (0 : ℚ) ≤ 1 / 2 ∧ (1 / 2 : ℚ) < 1 ∧
     (((FadeEnv.mk true true (1 / 2) true).nearPresent &&
        (FadeEnv.mk true true (1 / 2) true).nearActivated) = true →
       0 ≤ (FadeEnv.mk true true (1 / 2) true).nearImposedFarFade ∧
       (FadeEnv.mk true true (1 / 2) true).nearImposedFarFade ≤ 1)) ∧
    ((0 ≤ (calcFade (1 / 2) (1 / 2) (FadeEnv.mk true true (1 / 2) true) (2 / 3) false).1 ∧
      (calcFade (1 / 2) (1 / 2) (FadeEnv.mk true true (1 / 2) true) (2 / 3) false).1 ≤ 1) ∧
     (0 ≤ (calcFade (1 / 2) (1 / 2) (FadeEnv.mk true true (1 / 2) true) (2 / 3) false).2.1 ∧
      (calcFade (1 / 2) (1 / 2) (FadeEnv.mk true true (1 / 2) true) (2 / 3) false).2.1 ≤ 1)) :=
  ⟨⟨by norm_num, by norm_num, by norm_num, by norm_num, by norm_num, by norm_num,
    fun _ => by norm_num⟩,
   claim_C9 (1 / 2) (1 / 2) (FadeEnv.mk true true (1 / 2) true) false (2 / 3)
     (by norm_num) (by norm_num) (by norm_num) (by norm_num) (by norm_num) (by norm_num)
     (fun _ => by norm_num)⟩

/-! ### Destroyed-state guards (claims C1, C10) -/

/-- C1 (amended): on a destroyed record every lifecycle operation that takes
the `gritClass == NULL` guard — activate, deactivate, init, notifyFade,
getField, setNeedsFrameCallbacks, setNeedsStepCallbacks — raises the fatal
"Object destroyed" contract violation; `updateSphere`, however, performs no
destroyed-state check and returns without raising. -/
theorem claim_C1_amended (st : EngState) (oid : Nat) (o : ObjRec) (fuel : Nat)
    (h : getObj st oid = some o) (hd : o.gritClass = none) (hl : o.lua = false)
    (del : EngState → Nat → Except String EngState)
    (f : String) (v : Bool) (p : ℚ × ℚ × ℚ) (rad : ℚ) (fade : ℚ) :
    activateF fuel st oid = .error "Object destroyed" ∧
    deactivateWith del st oid = .error "Object destroyed" ∧
    initF fuel st oid = .error "Object destroyed" ∧
    notifyFadeF fuel st oid fade = .error "Object destroyed" ∧
    getFieldE st oid f = .error "Object destroyed" ∧
    setNeedsFrameCallbacksE st oid v = .error "Object destroyed" ∧
    setNeedsStepCallbacksE st oid v = .error "Object destroyed" ∧
    (∃ st', updateSphereE st oid p rad = .ok st') := by
  refine ⟨?_, ?_, ?_, ?_, ?_, ?_, ?_, ?_⟩
  · unfold activateF
    rw [h]
    simp [hd, hl]
  · unfold deactivateWith
    rw [h]
    simp [hd]
  · unfold initF
    rw [h]
    simp [hd]
  · unfold notifyFadeF
    rw [h]
    simp [hd]
  · unfold getFieldE
    rw [h]
    simp [hd]
  · unfold setNeedsFrameCallbacksE
    rw [h]
    simp [hd]
  · unfold setNeedsStepCallbacksE
    rw [h]
    simp [hd]
  · unfold updateSphereE
    rw [h]
    dsimp only
    by_cases hi : o.index = -1
    · rw [if_pos hi]
      exact ⟨st, rfl⟩
    · rw [if_neg hi]
      exact ⟨_, rfl⟩

/-- C1 counterexample: `updateSphere` on a destroyed record does not raise
"Object destroyed" — it returns normally (here: the unindexed early return),
refuting the claim that every listed lifecycle operation raises. -/
theorem claim_C1_counterexample :
    (getObj exDestroyedSt 0 = some exDestroyedObj ∧ exDestroyedObj.gritClass = none) ∧
    updateSphereE exDestroyedSt 0 (1, 2, 3) 4 = Except.ok exDestroyedSt :=
  ⟨⟨rfl, rfl⟩, rfl⟩

theorem claim_C1_witness :
    (getObj exDestroyedSt 0 = some exDestroyedObj ∧
     exDestroyedObj.gritClass = none ∧ exDestroyedObj.lua = false) ∧
    (activateF 1 exDestroyedSt 0 = .error "Object destroyed" ∧
     deactivateWith (fun s _ => Except.ok s) exDestroyedSt 0 = .error "Object destroyed" ∧
     initF 1 exDestroyedSt 0 = .error "Object destroyed" ∧
     notifyFadeF 1 exDestroyedSt 0 0 = .error "Object destroyed" ∧
     getFieldE exDestroyedSt 0 "activate" = .error "Object destroyed" ∧
     setNeedsFrameCallbacksE exDestroyedSt 0 true = .error "Object destroyed" ∧
     setNeedsStepCallbacksE exDestroyedSt 0 true = .error "Object destroyed" ∧
     (∃ st', updateSphereE exDestroyedSt 0 (0, 0, 0) 0 = .ok st')) :=
  ⟨⟨rfl, rfl, rfl⟩,
   claim_C1_amended exDestroyedSt 0 exDestroyedObj 1 rfl rfl rfl
     (fun s _ => Except.ok s) "activate" true (0, 0, 0) 0 0⟩

/-- C10: with the unindexed sentinel (`index == -1`) each of the three
`updateSphere` overloads returns immediately: the state (hence the stored
position/radius and the collaborator trace) is exactly unchanged and no
error is raised, destroyed or not. -/
theorem claim_C10 (st : EngState) (oid : Nat) (o : ObjRec)
    (h : getObj st oid = some o) (hidx : o.index = -1)
    (p : ℚ × ℚ × ℚ) (rad : ℚ) :
    updateSphereE st oid p rad = .ok st ∧
    updateSpherePosE st oid p = .ok st ∧
    updateSphereRE st oid rad = .ok st := by
  have key : ∀ (q : ℚ × ℚ × ℚ) (rr : ℚ), updateSphereE st oid q rr = Except.ok st := by
    intro q rr
    unfold updateSphereE
    rw [h]
    simp [hidx]
  refine ⟨key p rad, ?_, ?_⟩
  · unfold updateSpherePosE
    rw [h]
    simp [key]
  · unfold updateSphereRE
    rw [h]
    simp [key]

theorem claim_C10_witness :
    (getObj exDestroyedSt 0 = some exDestroyedObj ∧ exDestroyedObj.index = -1) ∧
    (updateSphereE exDestroyedSt 0 (5, 6, 7) 8 = .ok exDestroyedSt ∧
     updateSpherePosE exDestroyedSt 0 (5, 6, 7) = .ok exDestroyedSt ∧
     updateSphereRE exDestroyedSt 0 8 = .ok exDestroyedSt) :=
  ⟨⟨rfl, rfl⟩, claim_C10 exDestroyedSt 0 exDestroyedObj rfl rfl (5, 6, 7) 8⟩

/-! ### Double-destroy / double-delete (claim C7) -/

theorem object_del_succ (f : Nat) (st : EngState) (oid : Nat) :
    object_del (f + 1) st oid =
      match destroyWith (object_del f) st oid with
      | .error e => .error e
      | .ok st1 =>
        let st2 := emit st1 (.streamerUnlist oid)
        match getObj st2 oid with
        | none => .ok st2
        | some o => .ok { st2 with objs := aerase st2.objs o.name } := rfl

theorem destroyWith_destroyed (del : EngState → Nat → Except String EngState)
    (st : EngState) (oid : Nat) (o : ObjRec)
    (h : getObj st oid = some o) (hd : o.gritClass = none) :
    destroyWith del st oid = .ok st := by
  unfold destroyWith
  rw [h]
  simp [hd]

theorem aerase_of_alookup_none {α β : Type} [DecidableEq α]
    (l : List (α × β)) (k : α) (h : alookup l k = none) : aerase l k = l := by
  induction l with
  | nil => rfl
  | cons p ps ih =>
    unfold alookup at h
    by_cases hp : p.1 = k
    · rw [if_pos hp] at h
      exact absurd h (by simp)
    · rw [if_neg hp] at h
      unfold aerase at ih ⊢
      simp only [List.filter_cons, decide_eq_true_eq]
      rw [if_pos hp, ih h]

/-- C7 (amended): `destroy` on a destroyed record is a complete no-op.
`object_del` on a destroyed record raises no error and leaves the store (so
the neighbour links), both hot-sets and the class acquire/release trace
unchanged; the registry is unchanged exactly when the record's name is no
longer bound there — if the name is still bound (or was rebound), the second
delete does erase that binding. -/
theorem claim_C7_amended (st : EngState) (oid : Nat) (o : ObjRec)
    (h : getObj st oid = some o) (hd : o.gritClass = none)
    (del : EngState → Nat → Except String EngState) (fuel : Nat) (hf : 1 ≤ fuel) :
    destroyWith del st oid = .ok st ∧
    object_del fuel st oid =
      .ok { st with objs := aerase st.objs o.name,
                    events := st.events ++ [.streamerUnlist oid] } ∧
    (alookup st.objs o.name = none →
      aerase st.objs o.name = st.objs) := by
  obtain ⟨f, rfl⟩ : ∃ f, fuel = f + 1 := ⟨fuel - 1, by omega⟩
  refine ⟨destroyWith_destroyed del st oid o h hd, ?_,
    fun hnone => aerase_of_alookup_none st.objs o.name hnone⟩
  rw [object_del_succ, destroyWith_destroyed (object_del f) st oid o h hd]
  dsimp only
  have hg : getObj (emit st (.streamerUnlist oid)) oid = some o := h
  rw [hg]
  simp [emit]

/-- C7 counterexample: a record that is destroyed but whose name is still in
the registry — the claim's "already destroyed" hypothesis holds, yet a second
`object_del` changes the registry (it erases the binding), so the call is not
a no-op. -/
theorem claim_C7_counterexample :
    (getObj exDestroyedSt 0 = some exDestroyedObj ∧ exDestroyedObj.gritClass = none) ∧
    object_del 1 exDestroyedSt 0 =
      .ok { exDestroyedSt with objs := [], events := [Event.streamerUnlist 0] } ∧
    ({ exDestroyedSt with objs := ([] : List (String × Nat)),
                          events := [Event.streamerUnlist 0] } : EngState).objs ≠
      exDestroyedSt.objs :=
  ⟨⟨rfl, rfl⟩, rfl, by decide⟩

theorem claim_C7_witness :
    (getObj exAbsentSt 0 = some exDestroyedObj ∧ exDestroyedObj.gritClass = none ∧
     1 ≤ 1) ∧
    (destroyWith (fun s _ => Except.ok s) exAbsentSt 0 = .ok exAbsentSt ∧
     object_del 1 exAbsentSt 0 =
       .ok { exAbsentSt with objs := aerase exAbsentSt.objs exDestroyedObj.name,
                              events := exAbsentSt.events ++ [.streamerUnlist 0] } ∧
     (alookup exAbsentSt.objs exDestroyedObj.name = none →
       aerase exAbsentSt.objs exDestroyedObj.name = exAbsentSt.objs)) :=
  ⟨⟨rfl, rfl, le_refl 1⟩,
   claim_C7_amended exAbsentSt 0 exDestroyedObj rfl rfl (fun s _ => Except.ok s) 1
     (le_refl 1)⟩

/-! ### Decimal rendering is injective (towards claim C6) -/

theorem undigits_natDigitsF : ∀ fuel n, n < 10 ^ fuel → undigits (natDigitsF fuel n) = n := by
  intro fuel
  induction fuel with
  | zero =>
    intro n hn
    simp only [pow_zero, Nat.lt_one_iff] at hn
    subst hn
    rfl
  | succ f ih =>
    intro n hn
    by_cases h0 : n = 0
    · subst h0
      simp [natDigitsF, undigits]
    · have : natDigitsF (f + 1) n = n % 10 :: natDigitsF f (n / 10) := by
        simp [natDigitsF, h0]
      rw [this]
      unfold undigits
      have hpow : 10 ^ (f + 1) = 10 ^ f * 10 := pow_succ 10 f
      have hdf : n / 10 < 10 ^ f := by omega
      rw [ih (n / 10) hdf]
      omega

theorem natDigitsF_lt10 : ∀ fuel n d, d ∈ natDigitsF fuel n → d < 10 := by
  intro fuel
  induction fuel with
  | zero =>
    intro n d hd
    simp [natDigitsF] at hd
  | succ f ih =>
    intro n d hd
    by_cases h0 : n = 0
    · subst h0
      simp [natDigitsF] at hd
    · simp only [natDigitsF, if_neg h0, List.mem_cons] at hd
      rcases hd with h | h
      · omega
      · exact ih _ _ h

theorem digitChar_inj : ∀ d : Nat, d < 10 → ∀ e : Nat, e < 10 →
    Char.ofNat (48 + d) = Char.ofNat (48 + e) → d = e := by
  decide

theorem digitList_map_inj : ∀ l1 l2 : List Nat, (∀ d ∈ l1, d < 10) → (∀ d ∈ l2, d < 10) →
    l1.map (fun d => Char.ofNat (48 + d)) = l2.map (fun d => Char.ofNat (48 + d)) →
    l1 = l2 := by
  intro l1
  induction l1 with
  | nil =>
    intro l2 _ _ h
    cases l2 with
    | nil => rfl
    | cons b bs => simp at h
  | cons a as ih =>
    intro l2 h1 h2 h
    cases l2 with
    | nil => simp at h
    | cons b bs =>
      simp only [List.map_cons, List.cons.injEq] at h
      have ha : a < 10 := h1 a (by simp)
      have hb : b < 10 := h2 b (by simp)
      have hab : a = b := digitChar_inj a ha b hb h.1
      have htl : as = bs :=
        ih bs (fun d hd => h1 d (by simp [hd])) (fun d hd => h2 d (by simp [hd])) h.2
      rw [hab, htl]

theorem natRepr_inj : ∀ a b : Nat, a < 10 ^ 20 → b < 10 ^ 20 →
    natRepr a = natRepr b → a = b := by
  have key : ∀ b : Nat, b ≠ 0 → b < 10 ^ 20 → natRepr b ≠ "0" := by
    intro b hb hblt h
    unfold natRepr at h
    rw [if_neg hb] at h
    have hdata : ((natDigitsF 20 b).map (fun d => Char.ofNat (48 + d))).reverse =
        String.data "0" := congrArg String.data h
    have h0 : String.data "0" = ['0'] := rfl
    rw [h0] at hdata
    have : (natDigitsF 20 b).map (fun d => Char.ofNat (48 + d)) = ['0'] := by
      have := congrArg List.reverse hdata
      simpa using this
    have hdig : natDigitsF 20 b = [0] := by
      have h48 : ('0' : Char) = Char.ofNat (48 + 0) := rfl
      rw [h48] at this
      have : (natDigitsF 20 b).map (fun d => Char.ofNat (48 + d)) =
          [0].map (fun d => Char.ofNat (48 + d)) := by simpa using this
      exact digitList_map_inj _ _ (fun d hd => natDigitsF_lt10 20 b d hd)
        (by intro d hd; simp at hd; omega) this
    have := undigits_natDigitsF 20 b hblt
    rw [hdig] at this
    simp [undigits] at this
    exact hb this.symm
  intro a b ha hb h
  by_cases ha0 : a = 0 <;> by_cases hb0 : b = 0
  · omega
  · subst ha0
    exact absurd h.symm (key b hb0 hb)
  · subst hb0
    exact absurd h (key a ha0 ha)
  · unfold natRepr at h
    rw [if_neg ha0, if_neg hb0] at h
    have hdata := congrArg String.data h
    have : (natDigitsF 20 a).map (fun d => Char.ofNat (48 + d)) =
        (natDigitsF 20 b).map (fun d => Char.ofNat (48 + d)) := by
      have := congrArg List.reverse hdata
      simpa using this
    have hdig := digitList_map_inj _ _ (fun d hd => natDigitsF_lt10 20 a d hd)
      (fun d hd => natDigitsF_lt10 20 b d hd) this
    have hu := undigits_natDigitsF 20 a ha
    rw [hdig, undigits_natDigitsF 20 b hb] at hu
    exact hu.symm

theorem genName_inj (cname : String) : ∀ a b : Nat, a < 10 ^ 20 → b < 10 ^ 20 →
    genName cname a = genName cname b → a = b := by
  intro a b ha hb h
  unfold genName at h
  have hdata := congrArg String.data h
  have hpre : ∀ k : Nat, ("Unnamed:" ++ cname ++ ":" ++ natRepr k).data =
      ("Unnamed:" ++ cname ++ ":").data ++ (natRepr k).data := fun k => rfl
  rw [hpre a, hpre b] at hdata
  have hrepr : (natRepr a).data = (natRepr b).data :=
    List.append_cancel_left hdata
  have : natRepr a = natRepr b := by
    cases hra : natRepr a
    cases hrb : natRepr b
    rw [hra, hrb] at hrepr
    simp only at hrepr
    rw [hrepr]
  exact natRepr_inj a b ha hb this

theorem mod_W64_lt (n : Nat) : n % W64 < 10 ^ 20 := by
  have h1 : n % W64 < W64 := Nat.mod_lt n (by decide)
  have h2 : W64 < 10 ^ 20 := by decide
  omega

/-! ### Anonymous-name generation (claim C6) -/

theorem alookup_isSome_mem {α β : Type} [DecidableEq α] :
    ∀ (l : List (α × β)) (k : α) (v : β), alookup l k = some v → k ∈ l.map Prod.fst := by
  intro l
  induction l with
  | nil =>
    intro k v h
    simp [alookup] at h
  | cons p ps ih =>
    intro k v h
    unfold alookup at h
    by_cases hp : p.1 = k
    · simp [← hp]
    · rw [if_neg hp] at h
      simp [ih k v h]

theorem alookup_aupdate {α β : Type} [DecidableEq α] :
    ∀ (l : List (α × β)) (k j : α) (f : β → β),
      alookup (aupdate l k f) j =
        if j = k then (alookup l j).map f else alookup l j := by
  intro l
  induction l with
  | nil =>
    intro k j f
    simp [aupdate, alookup]
  | cons p ps ih =>
    intro k j f
    by_cases hp : p.1 = k <;> by_cases hpj : p.1 = j
    · have hjk : j = k := by rw [← hpj, hp]
      simp [aupdate, alookup, hp, hpj, hjk]
    · have hjk : ¬ j = k := fun h => hpj (by rw [hp, h])
      have hkj : ¬ k = j := fun h => hjk h.symm
      simp [aupdate, alookup, hp, hpj, hjk, hkj, ih k j f]
    · have hjk : ¬ j = k := fun h => hp (by rw [hpj, h])
      have hkj : ¬ k = j := fun h => hjk h.symm
      simp [aupdate, alookup, hp, hpj, hjk, hkj]
    · simp [aupdate, alookup, hp, hpj, ih k j f]

theorem alookup_append {α β : Type} [DecidableEq α] :
    ∀ (l1 l2 : List (α × β)) (j : α),
      alookup (l1 ++ l2) j =
        match alookup l1 j with
        | some v => some v
        | none => alookup l2 j := by
  intro l1
  induction l1 with
  | nil =>
    intro l2 j
    simp [alookup]
  | cons p ps ih =>
    intro l2 j
    by_cases hp : p.1 = j
    · simp [alookup, hp]
    · simp [alookup, hp, ih l2 j]

theorem alookup_aupsert_self {α β : Type} [DecidableEq α]
    (l : List (α × β)) (k : α) (v : β) :
    alookup (aupsert l k v) k = some v := by
  unfold aupsert
  by_cases h : (alookup l k).isSome
  · rw [if_pos h]
    rw [alookup_aupdate l k k (fun _ => v), if_pos rfl]
    cases hl : alookup l k with
    | none => rw [hl] at h; simp at h
    | some w => simp
  · rw [if_neg h]
    rw [alookup_append]
    cases hl : alookup l k with
    | none => simp [alookup]
    | some w => rw [hl] at h; simp at h

theorem genNameLoop_shape (cname : String) :
    ∀ fuel (objs : List (String × Nat)) k, ∃ jj, jj ≤ fuel ∧
      genNameLoop cname fuel objs k =
        (genName cname ((k + jj) % W64), (k + jj + 1) % W64) := by
  intro fuel
  induction fuel with
  | zero =>
    intro objs k
    exact ⟨0, le_rfl, by simp [genNameLoop]⟩
  | succ f ih =>
    intro objs k
    by_cases h : alookup objs (genName cname (k % W64)) = none
    · exact ⟨0, by omega, by simp [genNameLoop, h]⟩
    · obtain ⟨jj, h1, h3⟩ := ih objs ((k + 1) % W64)
      refine ⟨jj + 1, by omega, ?_⟩
      have hs : genNameLoop cname (f + 1) objs k =
          genNameLoop cname f objs ((k + 1) % W64) := by
        simp [genNameLoop, h]
      rw [hs, h3]
      have e1 : ((k + 1) % W64 + jj) % W64 = (k + (jj + 1)) % W64 := by
        rw [Nat.mod_add_mod]
        congr 1
        omega
      have e2 : ((k + 1) % W64 + jj + 1) % W64 = (k + (jj + 1) + 1) % W64 := by
        rw [Nat.add_assoc, Nat.mod_add_mod]
        congr 1
        omega
      rw [e1, e2]

theorem genNameLoop_fresh (cname : String) :
    ∀ fuel (objs : List (String × Nat)) k,
      (∃ jj, jj ≤ fuel ∧ alookup objs (genName cname ((k + jj) % W64)) = none) →
      alookup objs (genNameLoop cname fuel objs k).1 = none := by
  intro fuel
  induction fuel with
  | zero =>
    intro objs k ⟨jj, hle, hnone⟩
    have hz : jj = 0 := by omega
    subst hz
    simpa [genNameLoop] using hnone
  | succ f ih =>
    intro objs k ⟨jj, hle, hnone⟩
    by_cases h : alookup objs (genName cname (k % W64)) = none
    · simpa [genNameLoop, h] using h
    · have hjj : jj ≠ 0 := by
        intro h0
        subst h0
        simp at hnone
        exact h hnone
      have hstep : genNameLoop cname (f + 1) objs k =
          genNameLoop cname f objs ((k + 1) % W64) := by
        simp [genNameLoop, h]
      rw [hstep]
      apply ih
      refine ⟨jj - 1, by omega, ?_⟩
      have e1 : ((k + 1) % W64 + (jj - 1)) % W64 = (k + jj) % W64 := by
        rw [Nat.mod_add_mod]
        congr 1
        omega
      rw [e1]
      exact hnone

theorem genName_fresh_exists (cname : String) (objs : List (String × Nat)) (k : Nat)
    (hlen : objs.length < W64) :
    ∃ jj, jj ≤ objs.length ∧ alookup objs (genName cname ((k + jj) % W64)) = none := by
  by_contra hcon
  push_neg at hcon
  have hmem : ∀ jj ≤ objs.length, genName cname ((k + jj) % W64) ∈ objs.map Prod.fst := by
    intro jj hjj
    have hne := hcon jj hjj
    cases hl : alookup objs (genName cname ((k + jj) % W64)) with
    | none => exact absurd hl hne
    | some v => exact alookup_isSome_mem objs _ v hl
  have hinj : Set.InjOn (fun jj : Nat => genName cname ((k + jj) % W64))
      ↑(Finset.range (objs.length + 1)) := by
    intro x hx y hy hxy
    simp only [Finset.coe_range, Set.mem_Iio] at hx hy
    have hmx := genName_inj cname ((k + x) % W64) ((k + y) % W64)
      (mod_W64_lt (k + x)) (mod_W64_lt (k + y)) hxy
    have hW : W64 = 18446744073709551616 := rfl
    rw [hW] at hmx
    rw [hW] at hlen
    omega
  have hsub : (Finset.range (objs.length + 1)).image
        (fun jj => genName cname ((k + jj) % W64)) ⊆
      (objs.map Prod.fst).toFinset := by
    intro x hx
    simp only [Finset.mem_image, Finset.mem_range] at hx
    obtain ⟨jj, hjj, rfl⟩ := hx
    rw [List.mem_toFinset]
    exact hmem jj (by omega)
  have hcard := Finset.card_le_card hsub
  rw [Finset.card_image_of_injOn hinj, Finset.card_range] at hcard
  have hlen2 := List.toFinset_card_le (objs.map Prod.fst)
  rw [List.length_map] at hlen2
  omega

theorem object_add_anon (fuel : Nat) (st : EngState) (cname : String)
    (hlen : st.objs.length < W64) :
    ∃ jj st', jj ≤ st.objs.length ∧
      alookup st.objs (genName cname ((st.nameCounter + jj) % W64)) = none ∧
      object_add fuel st "" cname = .ok (st', st.nextId) ∧
      st'.nameCounter = (st.nameCounter + jj + 1) % W64 ∧
      st'.objs = st.objs ++
        [(genName cname ((st.nameCounter + jj) % W64), st.nextId)] ∧
      alookup st'.objs (genName cname ((st.nameCounter + jj) % W64)) =
        some st.nextId := by
  obtain ⟨jj, hj1, hloop⟩ :=
    genNameLoop_shape cname st.objs.length st.objs st.nameCounter
  have hfresh0 :
      alookup st.objs (genNameLoop cname st.objs.length st.objs st.nameCounter).1 = none :=
    genNameLoop_fresh cname st.objs.length st.objs st.nameCounter
      (genName_fresh_exists cname st.objs st.nameCounter hlen)
  rw [hloop] at hfresh0
  have hfresh : alookup st.objs (genName cname ((st.nameCounter + jj) % W64)) = none :=
    hfresh0
  have hup : aupsert st.objs (genName cname ((st.nameCounter + jj) % W64)) st.nextId =
      st.objs ++ [(genName cname ((st.nameCounter + jj) % W64), st.nextId)] := by
    unfold aupsert
    rw [hfresh]
    rfl
  refine ⟨jj,
    emit { st with nameCounter := (st.nameCounter + jj + 1) % W64,
                   store := st.store ++
                     [(st.nextId,
                       mkObj (genName cname ((st.nameCounter + jj) % W64)) cname true)],
                   objs := aupsert st.objs
                     (genName cname ((st.nameCounter + jj) % W64)) st.nextId,
                   nextId := st.nextId + 1,
                   events := st.events ++ [Event.classAcquired cname] }
      (.streamerList st.nextId),
    hj1, hfresh, ?_, rfl, ?_, ?_⟩
  · unfold object_add
    rw [if_pos rfl, hloop]
    dsimp only
    rw [hfresh]
    simp [emit]
  · simp only [emit]
    exact hup
  · simp only [emit]
    exact alookup_aupsert_self st.objs (genName cname ((st.nameCounter + jj) % W64))
      st.nextId

/-- C6 (amended): an empty-name `add` synthesises `Unnamed:<class>:<counter>`
colliding with no name registered at the time of the call whenever the
registry is smaller than the 64-bit counter space; and two successive
empty-name adds of the same class produce strictly increasing counter
components and distinct names provided the wrapping 64-bit generation
counter does not overflow during the two calls.  (At the wrap boundary the
strict-increase part fails: see the counterexample.) -/
theorem claim_C6_amended (fuel1 fuel2 : Nat) (st : EngState) (cname : String)
    (hlen : st.objs.length + 1 < W64)
    (hnw : st.nameCounter + 2 * st.objs.length + 2 < W64) :
    ∃ j1 j2 st1 st2,
      st.nameCounter ≤ j1 ∧
      alookup st.objs (genName cname j1) = none ∧
      object_add fuel1 st "" cname = .ok (st1, st.nextId) ∧
      alookup st1.objs (genName cname j1) = some st.nextId ∧
      st1.nameCounter = j1 + 1 ∧
      alookup st1.objs (genName cname j2) = none ∧
      object_add fuel2 st1 "" cname = .ok (st2, st1.nextId) ∧
      j1 < j2 ∧
      genName cname j1 ≠ genName cname j2 := by
  have hlen1 : st.objs.length < W64 := by omega
  obtain ⟨jj1, st1, hj1le, h12, h13, h14, hobjs1, h15⟩ :=
    object_add_anon fuel1 st cname hlen1
  have hm1 : (st.nameCounter + jj1) % W64 = st.nameCounter + jj1 :=
    Nat.mod_eq_of_lt (by omega)
  have hm2 : (st.nameCounter + jj1 + 1) % W64 = st.nameCounter + jj1 + 1 :=
    Nat.mod_eq_of_lt (by omega)
  rw [hm1] at h12 h15
  rw [hm2] at h14
  have hst1len : st1.objs.length = st.objs.length + 1 := by
    rw [hobjs1]
    simp
  have hlen2 : st1.objs.length < W64 := by omega
  obtain ⟨jj2, st2, hj2le, h22, h23, h24, hobjs2, h25⟩ :=
    object_add_anon fuel2 st1 cname hlen2
  have hm3 : (st1.nameCounter + jj2) % W64 = st1.nameCounter + jj2 :=
    Nat.mod_eq_of_lt (by omega)
  rw [hm3] at h22
  refine ⟨st.nameCounter + jj1, st1.nameCounter + jj2, st1, st2,
    by omega, h12, h13, h15, by omega, h22, h23, by omega, ?_⟩
  intro heq
  have hWlt : W64 < 10 ^ 20 := by decide
  have h1lt : st.nameCounter + jj1 < 10 ^ 20 := by omega
  have h2lt : st1.nameCounter + jj2 < 10 ^ 20 := by omega
  have := genName_inj cname (st.nameCounter + jj1) (st1.nameCounter + jj2)
    h1lt h2lt heq
  omega

/-- C6 is refuted at the wrap boundary: the generation counter is a wrapping
`unsigned long long` (line 36), so with the counter at `2 ^ 64 - 1` two
successive empty-name adds of class "A" synthesise counter components
`2 ^ 64 - 1` and then `0` — distinct names, but the counter components are
not strictly increasing, against the claim's universally quantified
strict-increase conjunct. -/
theorem claim_C6_counterexample :
    object_add 0 exWrapSt "" "A" = .ok (exWrapSt1, 0) ∧
    exWrapSt1.nameCounter = 0 ∧
    alookup exWrapSt1.objs (genName "A" (W64 - 1)) = some 0 ∧
    object_add 0 exWrapSt1 "" "A" = .ok (exWrapSt2, 1) ∧
    alookup exWrapSt2.objs (genName "A" 0) = some 1 ∧
    ¬ W64 - 1 < 0 := by
  refine ⟨rfl, rfl, by decide, rfl, by decide, by decide⟩

theorem claim_C6_witness :
    (exAnonSt.objs.length + 1 < W64 ∧
     exAnonSt.nameCounter + 2 * exAnonSt.objs.length + 2 < W64) ∧
    ∃ j1 j2 st1 st2,
      exAnonSt.nameCounter ≤ j1 ∧
      alookup exAnonSt.objs (genName "A" j1) = none ∧
      object_add 0 exAnonSt "" "A" = .ok (st1, exAnonSt.nextId) ∧
      alookup st1.objs (genName "A" j1) = some exAnonSt.nextId ∧
      st1.nameCounter = j1 + 1 ∧
      alookup st1.objs (genName "A" j2) = none ∧
      object_add 0 st1 "" "A" = .ok (st2, st1.nextId) ∧
      j1 < j2 ∧
      genName "A" j1 ≠ genName "A" j2 :=
  ⟨⟨by decide, by decide⟩,
   claim_C6_amended 0 0 exAnonSt "A" (by decide) (by decide)⟩

/-! ### Snapshot deletion sweep (claim C4) -/

theorem getObj_updObj (st : EngState) (oid : Nat) (f : ObjRec → ObjRec) (i : Nat) :
    getObj (updObj st oid f) i =
      if i = oid then (getObj st i).map f else getObj st i := by
  unfold getObj updObj
  exact alookup_aupdate st.store oid i f

theorem shrinks_refl (st : EngState) : Shrinks st st :=
  ⟨fun _ o h => ⟨o, h, rfl⟩, fun _ h => h⟩

theorem shrinks_trans {a b c : EngState} (h1 : Shrinks a b) (h2 : Shrinks b c) :
    Shrinks a c := by
  refine ⟨fun i o h => ?_, fun n h => h1.2 n (h2.2 n h)⟩
  obtain ⟨o2, hb, hn⟩ := h1.1 i o h
  obtain ⟨o3, hc, hn2⟩ := h2.1 i o2 hb
  exact ⟨o3, hc, by rw [hn2, hn]⟩

theorem shrinks_updObj (st : EngState) (oid : Nat) (f : ObjRec → ObjRec)
    (hf : ∀ q, (f q).name = q.name) : Shrinks st (updObj st oid f) := by
  refine ⟨fun i o h => ?_, fun n h => h⟩
  rw [getObj_updObj]
  by_cases hi : i = oid
  · rw [if_pos hi, h]
    exact ⟨f o, rfl, hf o⟩
  · rw [if_neg hi, h]
    exact ⟨o, rfl, rfl⟩

theorem shrinks_emit (st : EngState) (e : Event) : Shrinks st (emit st e) :=
  ⟨fun _ o h => ⟨o, h, rfl⟩, fun _ h => h⟩

theorem shrinks_frameHot (st : EngState) (l : List Nat) :
    Shrinks st { st with frameHot := l } :=
  ⟨fun _ o h => ⟨o, h, rfl⟩, fun _ h => h⟩

theorem shrinks_stepHot (st : EngState) (l : List Nat) :
    Shrinks st { st with stepHot := l } :=
  ⟨fun _ o h => ⟨o, h, rfl⟩, fun _ h => h⟩

theorem mem_aerase_keys {α β : Type} [DecidableEq α] (l : List (α × β)) (k : α)
    (n : α) (h : n ∈ (aerase l k).map Prod.fst) : n ∈ l.map Prod.fst := by
  unfold aerase at h
  simp only [List.mem_map] at h ⊢
  obtain ⟨p, hp, rfl⟩ := h
  exact ⟨p, (List.mem_filter.mp hp).1, rfl⟩

theorem not_mem_aerase_keys {α β : Type} [DecidableEq α] (l : List (α × β)) (k : α) :
    k ∉ (aerase l k).map Prod.fst := by
  intro h
  unfold aerase at h
  simp only [List.mem_map] at h
  obtain ⟨p, hp, hk⟩ := h
  have := (List.mem_filter.mp hp).2
  simp only [decide_eq_true_eq] at this
  exact this hk

theorem shrinks_objs_aerase (st : EngState) (nm : String) :
    Shrinks st { st with objs := aerase st.objs nm } :=
  ⟨fun _ o h => ⟨o, h, rfl⟩, fun n h => mem_aerase_keys st.objs nm n h⟩

theorem setNeedsFrame_shrinks (st : EngState) (oid : Nat) (v : Bool) (st2 : EngState)
    (h : setNeedsFrameCallbacksE st oid v = .ok st2) : Shrinks st st2 := by
  unfold setNeedsFrameCallbacksE at h
  cases hg : getObj st oid with
  | none =>
    rw [hg] at h
    dsimp only at h
    cases h
    exact shrinks_refl _
  | some o =>
    rw [hg] at h
    dsimp only at h
    cases hc : o.gritClass with
    | none =>
      rw [hc] at h
      dsimp only at h
      cases h
    | some cn =>
      rw [hc] at h
      dsimp only at h
      by_cases hv : v = o.needsFrameCallbacks
      · rw [if_pos hv] at h
        cases h
        exact shrinks_refl _
      · rw [if_neg hv] at h
        have hupd := shrinks_updObj st oid
          (fun q => { q with needsFrameCallbacks := v }) (fun q => rfl)
        cases v with
        | true =>
          simp only [if_pos rfl] at h
          cases h
          exact shrinks_trans hupd (shrinks_frameHot _ _)
        | false =>
          simp only [Bool.false_eq_true, if_neg] at h
          cases h
          exact shrinks_trans hupd (shrinks_frameHot _ _)

theorem runCmdsWith_shrinks (del : EngState → Nat → Except String EngState)
    (hdel : ∀ s i s2, del s i = .ok s2 → Shrinks s s2) :
    ∀ (cmds : List Cmd) (acc : EngState × Bool),
      Shrinks acc.1 (cmds.foldl
        (fun acc c =>
          if acc.2 then acc
          else
            match cmdStep del acc.1 c with
            | .ok s => (s, false)
            | .error _ => (acc.1, true)) acc).1 := by
  intro cmds
  induction cmds with
  | nil => intro acc; exact shrinks_refl _
  | cons c cs ih =>
    intro acc
    rw [List.foldl_cons]
    refine shrinks_trans (b := (if acc.2 then acc
      else
        match cmdStep del acc.1 c with
        | .ok s => (s, false)
        | .error _ => (acc.1, true)).1) ?_ (ih _)
    by_cases hb : acc.2
    · rw [if_pos hb]
      exact shrinks_refl _
    · rw [if_neg hb]
      cases hcs : cmdStep del acc.1 c with
      | ok s =>
        unfold cmdStep at hcs
        cases c with
        | cdel oid => exact hdel acc.1 oid s hcs
        | cunsubFrame oid => exact setNeedsFrame_shrinks acc.1 oid false s hcs
      | error e => exact shrinks_refl _

theorem runCmdsWith_shrinks' (del : EngState → Nat → Except String EngState)
    (hdel : ∀ s i s2, del s i = .ok s2 → Shrinks s s2)
    (st : EngState) (cmds : List Cmd) :
    Shrinks st (runCmdsWith del st cmds).1 :=
  runCmdsWith_shrinks del hdel cmds (st, false)

theorem deactivateWith_ne_error (del : EngState → Nat → Except String EngState)
    (s : EngState) (oid : Nat) (e : String)
    (hgc : ∀ o : ObjRec, getObj s oid = some o → o.gritClass ≠ none) :
    deactivateWith del s oid ≠ .error e := by
  intro h
  unfold deactivateWith at h
  split at h
  · cases h
  · rename_i o hg
    split at h
    · exact hgc o hg (by assumption)
    · rename_i cn hc
      dsimp only at h
      split at h
      · cases h
      · split at h
        · cases h
        · split at h
          · cases h
          · cases h

theorem destroy_mid_gritClass (st s : EngState) (oid : Nat) (o : ObjRec) (cn : String)
    (hg : getObj st oid = some o) (hc : o.gritClass = some cn)
    (hs : s.store = st.store) (o2 : ObjRec)
    (ho2 : getObj (updObj (updObj s oid (fun q => { q with nearObj := none }))
      oid (fun q => { q with farObj := none })) oid = some o2) :
    o2.gritClass ≠ none := by
  rw [getObj_updObj, if_pos rfl, getObj_updObj, if_pos rfl] at ho2
  unfold getObj at ho2 hg
  rw [hs, hg] at ho2
  dsimp only [Option.map] at ho2
  cases ho2
  simp [hc]

theorem destroyWith_ne_error (del : EngState → Nat → Except String EngState)
    (st : EngState) (oid : Nat) (e : String) :
    destroyWith del st oid ≠ .error e := by
  intro h
  unfold destroyWith at h
  split at h
  · cases h
  · rename_i o hg
    split at h
    · cases h
    · rename_i cn hc
      dsimp only at h
      split at h
      · rename_i e2 heq
        refine deactivateWith_ne_error del _ oid e2
          (fun o2 ho2 => destroy_mid_gritClass st _ oid o cn hg hc ?_ o2 ho2) heq
        split <;> split <;> rfl
      · cases h

theorem object_del_ne_error (fuel : Nat) (st : EngState) (oid : Nat) (e : String) :
    object_del fuel st oid ≠ .error e := by
  intro h
  cases fuel with
  | zero => cases h
  | succ f =>
    rw [object_del_succ] at h
    cases hE : destroyWith (object_del f) st oid with
    | error e2 => exact destroyWith_ne_error (object_del f) st oid e2 hE
    | ok st1 =>
      rw [hE] at h
      dsimp only at h
      split at h
      · cases h
      · cases h

theorem object_del_ok (fuel : Nat) (st : EngState) (oid : Nat) :
    ∃ st2, object_del fuel st oid = .ok st2 := by
  cases hE : object_del fuel st oid with
  | error e => exact absurd hE (object_del_ne_error fuel st oid e)
  | ok st2 => exact ⟨st2, rfl⟩

theorem deactivateWith_shrinks (del : EngState → Nat → Except String EngState)
    (hdel : ∀ s i s2, del s i = .ok s2 → Shrinks s s2)
    (st : EngState) (oid : Nat) (st2 : EngState) (b : Bool)
    (h : deactivateWith del st oid = .ok (st2, b)) : Shrinks st st2 := by
  unfold deactivateWith at h
  split at h
  · cases h
    exact shrinks_refl _
  · rename_i o hg
    split at h
    · cases h
    · rename_i cn hc
      dsimp only at h
      split at h
      · cases h
        exact shrinks_refl _
      · split at h
        · cases h
          exact shrinks_trans (shrinks_emit _ _) (shrinks_updObj _ _ _ fun q => rfl)
        · split at h
          · cases h
            exact shrinks_trans (shrinks_emit _ _) (shrinks_updObj _ _ _ fun q => rfl)
          · cases h
            exact shrinks_trans (shrinks_emit _ _)
              (shrinks_trans
                (runCmdsWith_shrinks' del hdel _ _)
                (shrinks_updObj _ _ _ fun q => rfl))

theorem destroyWith_shrinks (del : EngState → Nat → Except String EngState)
    (hdel : ∀ s i s2, del s i = .ok s2 → Shrinks s s2)
    (st : EngState) (oid : Nat) (st2 : EngState)
    (h : destroyWith del st oid = .ok st2) : Shrinks st st2 := by
  unfold destroyWith at h
  split at h
  · cases h
    exact shrinks_refl _
  · rename_i o hg
    split at h
    · cases h
      exact shrinks_refl _
    · rename_i cn hc
      dsimp only at h
      split at h
      · cases h
      · rename_i st5 b heq
        cases h
        have h2 := deactivateWith_shrinks del hdel _ oid st5 b heq
        refine shrinks_trans
          (shrinks_trans
            (shrinks_trans
              (shrinks_trans
                (shrinks_trans
                  (shrinks_trans ?hH
                    (shrinks_updObj _ _ (fun q => { q with nearObj := none }) fun q => rfl))
                  (shrinks_updObj _ _ (fun q => { q with farObj := none }) fun q => rfl))
                h2)
              (shrinks_emit _ _))
            (shrinks_updObj _ _ (fun q => { q with gritClass := none }) fun q => rfl))
          (shrinks_updObj _ _ (fun q => { q with userValues := [] }) fun q => rfl)
        split <;> split <;> exact ⟨fun _ o2 hh => ⟨o2, hh, rfl⟩, fun _ hh => hh⟩

theorem object_del_shrinks : ∀ (fuel : Nat) (st : EngState) (oid : Nat) (st2 : EngState),
    object_del fuel st oid = .ok st2 → Shrinks st st2 := by
  intro fuel
  induction fuel with
  | zero =>
    intro st oid st2 h
    cases h
    exact shrinks_refl _
  | succ f ih =>
    intro st oid st2 h
    rw [object_del_succ] at h
    split at h
    · cases h
    · rename_i st1 heq
      have h1 : Shrinks st st1 :=
        destroyWith_shrinks (object_del f) (fun s i s2 hh => ih s i s2 hh) st oid st1 heq
      dsimp only at h
      split at h
      · cases h
        exact shrinks_trans h1 (shrinks_emit _ _)
      · rename_i o hg
        cases h
        exact shrinks_trans (shrinks_trans h1 (shrinks_emit _ _)) (shrinks_objs_aerase _ _)

theorem object_del_erases (f : Nat) (st : EngState) (oid : Nat) (o : ObjRec)
    (st2 : EngState) (hg : getObj st oid = some o)
    (h : object_del (f + 1) st oid = .ok st2) :
    o.name ∉ objsKeys st2 := by
  rw [object_del_succ] at h
  cases hE : destroyWith (object_del f) st oid with
  | error e => exact absurd hE (destroyWith_ne_error _ st oid e)
  | ok st1 =>
    rw [hE] at h
    dsimp only at h
    have hS := destroyWith_shrinks (object_del f)
      (fun s i s2 hh => object_del_shrinks f s i s2 hh) st oid st1 hE
    obtain ⟨o1, ho1, hn1⟩ := hS.1 oid o hg
    have hg2 : getObj (emit st1 (.streamerUnlist oid)) oid = some o1 := ho1
    rw [hg2] at h
    dsimp only at h
    cases h
    rw [← hn1]
    exact not_mem_aerase_keys _ _

theorem delListF_spec (fuel : Nat) (hf : 1 ≤ fuel) :
    ∀ (snap : List (String × Nat)) (st : EngState),
      (∀ p ∈ snap, ∃ o, getObj st p.2 = some o ∧ o.name = p.1) →
      ∃ st2, delListF fuel snap st = .ok st2 ∧ Shrinks st st2 ∧
        ∀ p ∈ snap, p.1 ∉ objsKeys st2 := by
  obtain ⟨f, rfl⟩ : ∃ f, fuel = f + 1 := ⟨fuel - 1, by omega⟩
  intro snap
  induction snap with
  | nil =>
    intro st _
    exact ⟨st, rfl, shrinks_refl st, by simp⟩
  | cons p rest ih =>
    intro st hwf
    obtain ⟨o, ho, hname⟩ := hwf p (List.mem_cons_self p rest)
    obtain ⟨st1, hdel1⟩ := object_del_ok (f + 1) st p.2
    have hSh1 := object_del_shrinks (f + 1) st p.2 st1 hdel1
    have herase : o.name ∉ objsKeys st1 := object_del_erases f st p.2 o st1 ho hdel1
    have hwf1 : ∀ q ∈ rest, ∃ o2, getObj st1 q.2 = some o2 ∧ o2.name = q.1 := by
      intro q hq
      obtain ⟨oq, hoq, hnq⟩ := hwf q (List.mem_cons_of_mem p hq)
      obtain ⟨oq2, hoq2, hnq2⟩ := hSh1.1 q.2 oq hoq
      exact ⟨oq2, hoq2, by rw [hnq2, hnq]⟩
    obtain ⟨st2, hrun, hSh2, hout⟩ := ih st1 hwf1
    refine ⟨st2, ?_, shrinks_trans hSh1 hSh2, ?_⟩
    · unfold delListF
      rw [hdel1]
      exact hrun
    · intro q hq
      rcases List.mem_cons.mp hq with rfl | hq2
      · rw [← hname]
        intro hmem
        exact herase (hSh2.2 _ hmem)
      · exact hout q hq2

theorem WfB_spec (st : EngState) (h : WfB st = true) :
    ∀ p ∈ st.objs, ∃ o, getObj st p.2 = some o ∧ o.name = p.1 := by
  intro p hp
  unfold WfB at h
  rw [List.all_eq_true] at h
  have hthis := h p hp
  cases halo : alookup st.store p.2 with
  | none =>
    rw [halo] at hthis
    dsimp only at hthis
    cases hthis
  | some o =>
    rw [halo] at hthis
    dsimp only at hthis
    exact ⟨o, halo, of_decide_eq_true hthis⟩

/-- C4: `object_all_del` iterates a snapshot copy of the registry (by
definition, the list read before the sweep starts); for every well-formed
starting state — whatever re-entrant deletions the deactivate hooks perform,
including deleting objects still in the snapshot — it raises no error and
leaves the registry empty. -/
theorem claim_C4 (st : EngState) (fuel : Nat) (hf : 1 ≤ fuel) (hwf : WfB st = true) :
    ∃ st2, object_all_del fuel st = .ok st2 ∧ st2.objs = [] := by
  obtain ⟨st2, hrun, hSh, hout⟩ := delListF_spec fuel hf st.objs st (WfB_spec st hwf)
  refine ⟨st2, hrun, ?_⟩
  have hkeys : ∀ n, n ∉ objsKeys st2 := by
    intro n hn
    have hmem := hSh.2 n hn
    unfold objsKeys at hmem
    rw [List.mem_map] at hmem
    obtain ⟨p, hp, rfl⟩ := hmem
    exact hout p hp hn
  cases hobjs : st2.objs with
  | nil => rfl
  | cons q qs =>
    exfalso
    apply hkeys q.1
    unfold objsKeys
    rw [hobjs]
    simp

theorem claim_C4_witness :
    (1 ≤ 2 ∧ WfB exDelSt = true) ∧
    (∃ st2, object_all_del 2 exDelSt = .ok st2 ∧ st2.objs = []) :=
  ⟨⟨by norm_num, by decide⟩, claim_C4 exDelSt 2 (by norm_num) (by decide)⟩

/-! ### Replace semantics of add (claim C5) -/

theorem not_mem_serase (l : List Nat) (x : Nat) : x ∉ serase l x := by
  intro h
  unfold serase at h
  have := (List.mem_filter.mp h).2
  simp at this

theorem claim_C5 (f : Nat) (st : EngState) (n cname : String) (oldId : Nat) (o : ObjRec)
    (cn : String) (cl : GritClass)
    (hne : ¬ n = "")
    (hlk : alookup st.objs n = some oldId)
    (hg : getObj st oldId = some o)
    (hname : o.name = n)
    (hc : o.gritClass = some cn)
    (hl : o.lua = true)
    (hcl : alookup st.classes cn = some cl)
    (hpres : cl.deactivateHook.present = true)
    (hcmds : cl.deactivateHook.cmds = [])
    (hfreshId : alookup st.store st.nextId = none)
    (hmf : o.needsFrameCallbacks = false → oldId ∉ st.frameHot)
    (hms : o.needsStepCallbacks = false → oldId ∉ st.stepHot) :
    ∃ mid st2,
      object_del (f + 1) st oldId = .ok mid ∧
      object_add (f + 1) st n cname = .ok (st2, st.nextId) ∧
      (getObj mid oldId).map
        (fun q => (q.gritClass, q.lua, q.nearObj, q.farObj, q.userValues)) =
        some (none, false, none, none, []) ∧
      oldId ∉ mid.frameHot ∧ oldId ∉ mid.stepHot ∧
      releasesOf mid cn = releasesOf st cn + 1 ∧
      mid.nextId = st.nextId ∧
      getObj st2 st.nextId = some (mkObj n cname false) ∧
      alookup st2.objs n = some st.nextId ∧
      st2.events = mid.events ++ [Event.classAcquired cname, Event.streamerList st.nextId] := by
  have hg' : alookup st.store oldId = some o := hg
  have hid : ¬ oldId = st.nextId := by
    intro he
    rw [he, hfreshId] at hg'
    cases hg'
  have hid2 : ¬ st.nextId = oldId := fun hh => hid hh.symm
  cases hF : o.needsFrameCallbacks <;> cases hS : o.needsStepCallbacks <;>
  · have h : object_del (f+1) st oldId = object_del (f+1) st oldId := rfl
    conv at h => lhs; rw [object_del_succ]
    conv at h => lhs; rw [destroyWith]
    rw [hg] at h
    dsimp only at h
    rw [hc] at h
    dsimp only at h
    simp only [hF, hS, Bool.false_eq_true, if_pos rfl, if_true, if_false] at h
    conv at h => lhs; rw [deactivateWith]
    simp only [deactivateWith, getObj, updObj, emit, clearLua, alookup_aupdate, hg', hc, hl, hcl,
      hpres, hcmds, runCmdsWith, List.foldl, Option.map, Bool.not_true, Bool.false_eq_true,
      if_true, if_false, hname] at h
    have ha : object_add (f+1) st n cname = object_add (f+1) st n cname := rfl
    conv at ha => lhs; rw [object_add]
    simp only [if_neg hne] at ha
    (try dsimp only at ha)
    rw [hlk] at ha
    (try dsimp only at ha)
    conv at ha => lhs; rw [← h]
    (try dsimp only at ha)
    refine ⟨_, _, h.symm, ha.symm, ?_, ?_, ?_, ?_, rfl, ?_, ?_, ?_⟩
    · simp [getObj, alookup_aupdate, hg']
    · first
      | exact hmf hF
      | exact not_mem_serase st.frameHot oldId
    · first
      | exact hms hS
      | exact not_mem_serase st.stepHot oldId
    · simp [releasesOf, List.filter_append]
    · simp [getObj, emit, alookup_append, alookup_aupdate, hid2, hfreshId, alookup]
    · exact alookup_aupsert_self (aerase st.objs n) n st.nextId
    · simp [emit, List.append_assoc]

theorem claim_C5_witness :
    ((¬ "c" = "") ∧ alookup exAddSt.objs "c" = some 0 ∧ getObj exAddSt 0 = some exRecC ∧
     exRecC.name = "c" ∧ exRecC.gritClass = some "B" ∧ exRecC.lua = true ∧
     alookup exAddSt.classes "B" = some exClassB ∧
     exClassB.deactivateHook.present = true ∧ exClassB.deactivateHook.cmds = [] ∧
     alookup exAddSt.store exAddSt.nextId = none ∧
     (exRecC.needsFrameCallbacks = false → 0 ∉ exAddSt.frameHot) ∧
     (exRecC.needsStepCallbacks = false → 0 ∉ exAddSt.stepHot)) ∧
    (∃ mid st2,
      object_del (0 + 1) exAddSt 0 = .ok mid ∧
      object_add (0 + 1) exAddSt "c" "B" = .ok (st2, exAddSt.nextId) ∧
      (getObj mid 0).map
        (fun q => (q.gritClass, q.lua, q.nearObj, q.farObj, q.userValues)) =
        some (none, false, none, none, []) ∧
      0 ∉ mid.frameHot ∧ 0 ∉ mid.stepHot ∧
      releasesOf mid "B" = releasesOf exAddSt "B" + 1 ∧
      mid.nextId = exAddSt.nextId ∧
      getObj st2 exAddSt.nextId = some (mkObj "c" "B" false) ∧
      alookup st2.objs "c" = some exAddSt.nextId ∧
      st2.events = mid.events ++ [Event.classAcquired "B", Event.streamerList exAddSt.nextId]) :=
  ⟨⟨by decide, rfl, rfl, rfl, rfl, rfl, rfl, rfl, rfl, rfl, by decide, by decide⟩,
   claim_C5 0 exAddSt "c" "B" 0 exRecC "B" exClassB (by decide) rfl rfl rfl rfl rfl rfl
     rfl rfl rfl (by decide) (by decide)⟩

/-! ### Frame-callback dispatch (claim C8) -/

theorem upresF_refl (s : EngState) : UPresF s s :=
  ⟨fun _ o h => ⟨o, h, rfl⟩, rfl, fun _ h => h⟩

theorem upresF_trans {a b c : EngState} (h1 : UPresF a b) (h2 : UPresF b c) : UPresF a c := by
  refine ⟨fun i o h => ?_, h2.2.1.trans h1.2.1, fun x hx => h1.2.2 x (h2.2.2 x hx)⟩
  obtain ⟨o2, hb, hcls⟩ := h1.1 i o h
  obtain ⟨o3, hc, hcls2⟩ := h2.1 i o2 hb
  exact ⟨o3, hc, by rw [hcls2, hcls]⟩

theorem upresF_emit (s : EngState) (e : Event) : UPresF s (emit s e) :=
  ⟨fun _ o h => ⟨o, h, rfl⟩, rfl, fun _ h => h⟩

theorem mirrorF_emit (s : EngState) (e : Event) (h : MirrorF s) : MirrorF (emit s e) := h

theorem frameInvokes_emit_self (s : EngState) (m : Nat) :
    frameInvokes (emit s (.frameCbInvoked m)) m = frameInvokes s m + 1 := by
  simp [frameInvokes, emit, List.filter_append, List.filter]

theorem frameInvokes_emit_ne (s : EngState) (e : Event) (i : Nat)
    (h : ¬ e = Event.frameCbInvoked i) :
    frameInvokes (emit s e) i = frameInvokes s i := by
  simp [frameInvokes, emit, List.filter_append, List.filter, h]

theorem getObj_setFrameHot (X : EngState) (l : List Nat) (i : Nat) :
    getObj { X with frameHot := l } i = getObj X i := rfl

theorem setNeedsF_false_spec (s : EngState) (m : Nat) (s1 : EngState)
    (hMir : MirrorF s) (h : setNeedsFrameCallbacksE s m false = .ok s1) :
    UPresF s s1 ∧ MirrorF s1 ∧ s1.events = s.events ∧ m ∉ s1.frameHot := by
  unfold setNeedsFrameCallbacksE at h
  split at h
  · rename_i hg
    cases h
    refine ⟨upresF_refl _, hMir, rfl, fun hmem => ?_⟩
    obtain ⟨o, ho, _⟩ := hMir m hmem
    rw [hg] at ho
    cases ho
  · rename_i o hg
    split at h
    · cases h
    · rename_i cn hc
      dsimp only at h
      split at h
      · rename_i hflag
        cases h
        refine ⟨upresF_refl _, hMir, rfl, fun hmem => ?_⟩
        obtain ⟨o2, ho2, hf2⟩ := hMir m hmem
        rw [hg] at ho2
        cases ho2
        rw [hf2] at hflag
        cases hflag
      · rename_i hflag
        simp only [Bool.false_eq_true, if_false] at h
        cases h
        refine ⟨?_, ?_, rfl, ?_⟩
        · refine ⟨fun i o2 ho2 => ?_, rfl, fun x hx => (List.mem_filter.mp hx).1⟩
          rw [getObj_setFrameHot, getObj_updObj]
          by_cases hi : i = m
          · subst hi
            rw [if_pos rfl, ho2]
            exact ⟨_, rfl, rfl⟩
          · rw [if_neg hi, ho2]
            exact ⟨o2, rfl, rfl⟩
        · intro i hi
          have hi2 : i ∈ s.frameHot := (List.mem_filter.mp hi).1
          have hine : ¬ i = m := by
            have := (List.mem_filter.mp hi).2
            simpa using this
          obtain ⟨o2, ho2, hf2⟩ := hMir i hi2
          refine ⟨o2, ?_, hf2⟩
          rw [getObj_setFrameHot, getObj_updObj, if_neg hine]
          exact ho2
        · exact fun hmem => absurd (List.mem_filter.mp hmem).2 (by simp)

theorem frameInvokes_congr (s1 s2 : EngState) (h : s1.events = s2.events) (i : Nat) :
    frameInvokes s1 i = frameInvokes s2 i := by
  unfold frameInvokes
  rw [h]

theorem runCmds_unsub_spec (del : EngState → Nat → Except String EngState) :
    ∀ (cmds : List Cmd), (∀ c ∈ cmds, isUnsub c = true) →
    ∀ (acc : EngState × Bool), MirrorF acc.1 →
      UPresF acc.1 (cmds.foldl
        (fun acc c =>
          if acc.2 then acc
          else
            match cmdStep del acc.1 c with
            | .ok s => (s, false)
            | .error _ => (acc.1, true)) acc).1 ∧
      MirrorF (cmds.foldl
        (fun acc c =>
          if acc.2 then acc
          else
            match cmdStep del acc.1 c with
            | .ok s => (s, false)
            | .error _ => (acc.1, true)) acc).1 ∧
      (cmds.foldl
        (fun acc c =>
          if acc.2 then acc
          else
            match cmdStep del acc.1 c with
            | .ok s => (s, false)
            | .error _ => (acc.1, true)) acc).1.events = acc.1.events := by
  intro cmds
  induction cmds with
  | nil =>
    intro _ acc hM
    exact ⟨upresF_refl _, hM, rfl⟩
  | cons c cs ih =>
    intro hall acc hM
    rw [List.foldl_cons]
    have hhead : UPresF acc.1 ((if acc.2 then acc
        else
          match cmdStep del acc.1 c with
          | .ok s => (s, false)
          | .error _ => (acc.1, true))).1 ∧
        MirrorF ((if acc.2 then acc
        else
          match cmdStep del acc.1 c with
          | .ok s => (s, false)
          | .error _ => (acc.1, true))).1 ∧
        ((if acc.2 then acc
        else
          match cmdStep del acc.1 c with
          | .ok s => (s, false)
          | .error _ => (acc.1, true))).1.events = acc.1.events := by
      by_cases hb : acc.2
      · rw [if_pos hb]
        exact ⟨upresF_refl _, hM, rfl⟩
      · rw [if_neg hb]
        cases c with
        | cdel t =>
          have hcontra := hall (.cdel t) (by simp)
          simp [isUnsub] at hcontra
        | cunsubFrame t =>
          cases hcs : cmdStep del acc.1 (.cunsubFrame t) with
          | ok s2 =>
            unfold cmdStep at hcs
            obtain ⟨hU, hMir2, hev, _⟩ := setNeedsF_false_spec acc.1 t s2 hM hcs
            exact ⟨hU, hMir2, hev⟩
          | error e =>
            exact ⟨upresF_refl _, hM, rfl⟩
    obtain ⟨hU1, hM1, he1⟩ := hhead
    obtain ⟨hU2, hM2, he2⟩ := ih (fun c2 hc2 => hall c2 (by simp [hc2])) _ hM1
    exact ⟨upresF_trans hU1 hU2, hM2, by rw [he2, he1]⟩

theorem runCmdsWith_unsub (del : EngState → Nat → Except String EngState)
    (cmds : List Cmd) (hall : ∀ c ∈ cmds, isUnsub c = true)
    (s : EngState) (hM : MirrorF s) :
    UPresF s (runCmdsWith del s cmds).1 ∧ MirrorF (runCmdsWith del s cmds).1 ∧
      (runCmdsWith del s cmds).1.events = s.events :=
  runCmds_unsub_spec del cmds hall (s, false) hM

theorem frameHookOf_eq (s : EngState) (m : Nat) (o : ObjRec) (cn : String) (cl : GritClass)
    (hg : getObj s m = some o) (hc : o.gritClass = some cn)
    (hcl : alookup s.classes cn = some cl) :
    frameHookOf s m = some cl.frameHook := by
  unfold frameHookOf
  rw [hg]
  dsimp only
  rw [hc]
  dsimp only
  rw [hcl]
  rfl

theorem frameHookOf_upres (s s2 : EngState) (oid : Nat) (hk : HookSpec)
    (hU : UPresF s s2) (h : frameHookOf s oid = some hk) :
    frameHookOf s2 oid = some hk := by
  unfold frameHookOf at h ⊢
  cases hg : getObj s oid with
  | none =>
    rw [hg] at h
    cases h
  | some o =>
    rw [hg] at h
    dsimp only at h
    cases hc : o.gritClass with
    | none =>
      rw [hc] at h
      cases h
    | some cn =>
      rw [hc] at h
      dsimp only at h
      obtain ⟨o2, hg2, hc2⟩ := hU.1 oid o hg
      rw [hg2]
      dsimp only
      rw [hc2, hc]
      dsimp only
      rw [hU.2.1]
      exact h

theorem memberOkF_upres (s s2 : EngState) (oid : Nat)
    (hU : UPresF s s2) (h : MemberOkF s oid) : MemberOkF s2 oid := by
  obtain ⟨o, cn, cl, hg, hc, hcl, hall⟩ := h
  obtain ⟨o2, hg2, hc2⟩ := hU.1 oid o hg
  exact ⟨o2, cn, cl, hg2, by rw [hc2, hc], by rw [hU.2.1]; exact hcl, hall⟩

theorem frameCallbackF_spec (fuel : Nat) (s : EngState) (m : Nat) (o : ObjRec)
    (cn : String) (cl : GritClass)
    (hg : getObj s m = some o) (hc : o.gritClass = some cn)
    (hcl : alookup s.classes cn = some cl)
    (hall : ∀ c ∈ cl.frameHook.cmds, isUnsub c = true)
    (hM : MirrorF s) :
    ∃ s1 ret, frameCallbackF fuel s m = .ok (s1, ret) ∧ UPresF s s1 ∧ MirrorF s1 ∧
      (cl.frameHook.present = true →
        frameInvokes s1 m = frameInvokes s m + 1 ∧
        ∀ i, ¬ i = m → frameInvokes s1 i = frameInvokes s i) ∧
      (cl.frameHook.present = false → s1 = s) ∧
      ((cl.frameHook.present = false ∨ cl.frameHook.errors = true) → ret = false) := by
  unfold frameCallbackF
  rw [hg]
  dsimp only
  rw [hc]
  dsimp only
  rw [hcl]
  dsimp only [Option.map]
  cases hpres : cl.frameHook.present with
  | false =>
    simp only [hpres, Bool.not_false, if_pos rfl, if_true]
    refine ⟨s, false, rfl, upresF_refl s, hM, ?_, fun _ => rfl, fun _ => rfl⟩
    intro hcontra
    cases hcontra
  | true =>
    simp only [hpres, Bool.not_true, Bool.false_eq_true, if_false]
    obtain ⟨hU, hM2, hev⟩ := runCmdsWith_unsub (object_del fuel) cl.frameHook.cmds hall
      (emit s (.frameCbInvoked m)) (mirrorF_emit s _ hM)
    refine ⟨_, _, rfl, upresF_trans (upresF_emit s _) hU, hM2, ?_, ?_, ?_⟩
    · intro _
      constructor
      · rw [frameInvokes_congr _ _ hev m]
        exact frameInvokes_emit_self s m
      · intro i hi
        rw [frameInvokes_congr _ _ hev i]
        refine frameInvokes_emit_ne s _ i ?_
        simp only [Event.frameCbInvoked.injEq]
        exact fun hh => hi hh.symm
    · intro hcontra
      exact absurd hcontra (by decide)
    · intro hor
      rcases hor with hcontra | herr
      · exact absurd hcontra (by decide)
      · rw [herr]
        simp

theorem setNeedsF_false_ok (s : EngState) (m : Nat) (o : ObjRec) (cn : String)
    (hg : getObj s m = some o) (hc : o.gritClass = some cn) :
    ∃ s1, setNeedsFrameCallbacksE s m false = .ok s1 := by
  unfold setNeedsFrameCallbacksE
  rw [hg]
  dsimp only
  rw [hc]
  dsimp only
  by_cases hf : false = o.needsFrameCallbacks
  · rw [if_pos hf]
    exact ⟨s, rfl⟩
  · rw [if_neg hf, if_neg (by decide : ¬ false = true)]
    exact ⟨_, rfl⟩

theorem frameCbList_spec (fuel : Nat) (l : List Nat) :
    ∀ s : EngState, l.Nodup → (∀ m ∈ l, MemberOkF s m) → MirrorF s →
    ∃ s2, frameCbListF fuel l s = .ok s2 ∧ UPresF s s2 ∧ MirrorF s2 ∧
      (∀ i, i ∉ l → frameInvokes s2 i = frameInvokes s i) ∧
      (∀ m ∈ l, ∀ hk, frameHookOf s m = some hk →
        (hk.present = true → frameInvokes s2 m = frameInvokes s m + 1) ∧
        ((hk.present = false ∨ hk.errors = true) → m ∉ s2.frameHot)) := by
  induction l with
  | nil =>
    intro s _ _ hM
    refine ⟨s, rfl, upresF_refl s, hM, fun i _ => rfl, ?_⟩
    intro m hm
    exact absurd hm (by simp)
  | cons m rest ih =>
    intro s hnd hok hM
    obtain ⟨o, cn, cl, hg, hc, hcl, hall⟩ := hok m (List.mem_cons_self m rest)
    obtain ⟨s1, ret, heq, hU1, hM1, hT, hF, hR⟩ :=
      frameCallbackF_spec fuel s m o cn cl hg hc hcl hall hM
    have hmr : m ∉ rest := (List.nodup_cons.mp hnd).1
    have hndr : rest.Nodup := (List.nodup_cons.mp hnd).2
    have hhkm : frameHookOf s m = some cl.frameHook := frameHookOf_eq s m o cn cl hg hc hcl
    have hbase : ∀ i, ¬ i = m → frameInvokes s1 i = frameInvokes s i := by
      intro i hi
      cases hpp : cl.frameHook.present with
      | false => rw [hF hpp]
      | true => exact (hT hpp).2 i hi
    cases ret with
    | true =>
      have hokr : ∀ p ∈ rest, MemberOkF s1 p := fun p hp =>
        memberOkF_upres s s1 p hU1 (hok p (List.mem_cons_of_mem m hp))
      obtain ⟨s2, heq2, hU2, hM2, hunt, hmem⟩ := ih s1 hndr hokr hM1
      refine ⟨s2, ?_, upresF_trans hU1 hU2, hM2, ?_, ?_⟩
      · simp only [frameCbListF]
        rw [heq]
        dsimp only
        rw [if_pos rfl]
        exact heq2
      · intro i hi
        have hi1 : i ∉ rest := fun hx => hi (List.mem_cons_of_mem m hx)
        have him : ¬ i = m := fun hx => hi (hx ▸ List.mem_cons_self m rest)
        rw [hunt i hi1, hbase i him]
      · intro p hp hk hhk
        rcases List.mem_cons.mp hp with rfl | hpr
        · rw [hhkm] at hhk
          injection hhk with hkk
          subst hkk
          constructor
          · intro hpres
            rw [hunt p hmr]
            exact (hT hpres).1
          · intro hor
            exact absurd (hR hor) (by decide)
        · have hhk1 : frameHookOf s1 p = some hk := frameHookOf_upres s s1 p hk hU1 hhk
          have hpm : ¬ p = m := fun hx => hmr (hx ▸ hpr)
          obtain ⟨h1, h2⟩ := hmem p hpr hk hhk1
          constructor
          · intro hpres
            rw [h1 hpres, hbase p hpm]
          · exact h2
    | false =>
      obtain ⟨o2, hg2, hc2⟩ := hU1.1 m o hg
      have hc2n : o2.gritClass = some cn := by rw [hc2, hc]
      obtain ⟨s1n, hset⟩ := setNeedsF_false_ok s1 m o2 cn hg2 hc2n
      obtain ⟨hU1n, hM1n, hevn, hnot⟩ := setNeedsF_false_spec s1 m s1n hM1 hset
      have hokr : ∀ p ∈ rest, MemberOkF s1n p := fun p hp =>
        memberOkF_upres s s1n p (upresF_trans hU1 hU1n)
          (hok p (List.mem_cons_of_mem m hp))
      obtain ⟨s2, heq2, hU2, hM2, hunt, hmem⟩ := ih s1n hndr hokr hM1n
      refine ⟨s2, ?_, upresF_trans hU1 (upresF_trans hU1n hU2), hM2, ?_, ?_⟩
      · simp only [frameCbListF]
        rw [heq]
        dsimp only
        rw [if_neg (by decide : ¬ false = true), hset]
        exact heq2
      · intro i hi
        have hi1 : i ∉ rest := fun hx => hi (List.mem_cons_of_mem m hx)
        have him : ¬ i = m := fun hx => hi (hx ▸ List.mem_cons_self m rest)
        rw [hunt i hi1, frameInvokes_congr s1n s1 hevn i, hbase i him]
      · intro p hp hk hhk
        rcases List.mem_cons.mp hp with rfl | hpr
        · rw [hhkm] at hhk
          injection hhk with hkk
          subst hkk
          constructor
          · intro hpres
            rw [hunt p hmr, frameInvokes_congr s1n s1 hevn p]
            exact (hT hpres).1
          · intro _
            exact fun hin => hnot (hU2.2.2 p hin)
        · have hhk1 : frameHookOf s1n p = some hk :=
            frameHookOf_upres s s1n p hk (upresF_trans hU1 hU1n) hhk
          have hpm : ¬ p = m := fun hx => hmr (hx ▸ hpr)
          obtain ⟨h1, h2⟩ := hmem p hpr hk hhk1
          constructor
          · intro hpres
            rw [h1 hpres, frameInvokes_congr s1n s1 hevn p, hbase p hpm]
          · exact h2

/-- C8: a `doFrameCallbacks` pass iterates the snapshot of the frame hot-set
taken when the pass starts: when every snapshotted subscriber is live with a
resolvable class whose frame hook makes only unsubscription calls, the pass
raises no error (hook errors are swallowed), every subscriber whose hook is
present receives exactly one invocation during the pass — even if another
subscriber's hook unsubscribed it mid-pass — and every subscriber whose hook
is absent or raises is out of the frame hot-set by the end of the pass. -/
theorem claim_C8 (fuel : Nat) (st : EngState)
    (hnd : st.frameHot.Nodup)
    (hok : ∀ m ∈ st.frameHot, MemberOkF st m)
    (hM : MirrorF st) :
    ∃ st2, object_do_frame_callbacks fuel st = .ok st2 ∧
      (∀ m ∈ st.frameHot, ∀ hk, frameHookOf st m = some hk →
        (hk.present = true → frameInvokes st2 m = frameInvokes st m + 1) ∧
        ((hk.present = false ∨ hk.errors = true) → m ∉ st2.frameHot)) := by
  obtain ⟨s2, heq, _, _, _, hmem⟩ := frameCbList_spec fuel st.frameHot st hnd hok hM
  exact ⟨s2, heq, hmem⟩

theorem claim_C8_witness :
    ∃ st2, object_do_frame_callbacks 1 exFrameSt = .ok st2 ∧
      (∀ m ∈ exFrameSt.frameHot, ∀ hk, frameHookOf exFrameSt m = some hk →
        (hk.present = true → frameInvokes st2 m = frameInvokes exFrameSt m + 1) ∧
        ((hk.present = false ∨ hk.errors = true) → m ∉ st2.frameHot)) :=
  claim_C8 1 exFrameSt (by decide)
    (by
      intro m hm
      simp only [exFrameSt, List.mem_cons, List.not_mem_nil, or_false] at hm
      rcases hm with rfl | rfl | rfl | rfl
      · exact ⟨exRecW, "W", exClassW, rfl, rfl, rfl, by decide⟩
      · exact ⟨exRecX, "X", exClassX, rfl, rfl, rfl, by decide⟩
      · exact ⟨exRecY, "Y", exClassY, rfl, rfl, rfl, by decide⟩
      · exact ⟨exRecZ, "Z", exClassZ, rfl, rfl, rfl, by decide⟩)
    (by
      intro i hi
      simp only [exFrameSt, List.mem_cons, List.not_mem_nil, or_false] at hi
      rcases hi with rfl | rfl | rfl | rfl
      · exact ⟨exRecW, rfl, rfl⟩
      · exact ⟨exRecX, rfl, rfl⟩
      · exact ⟨exRecY, rfl, rfl⟩
      · exact ⟨exRecZ, rfl, rfl⟩)
